import Mathlib

/-!
# Appointment scheduling engine of `server.js`

Shallow embedding of the appointment routes of `src/server.js`
(`POST /citas`, `PUT /citas/:id/cancelar`, `GET /estadisticas/doctores`,
`GET /estadisticas/especialidades`, `GET /doctores/disponibles`,
`GET /citas/proximas`) and the properties of the scheduling specification
checked against them.

Conventions of the embedding.

* A time of day is the text `HH:MM`; it is represented by the two numbers that
  `hora.split(":").map(Number)` yields.  Two canonical texts are equal exactly
  when both numbers are equal, so `c.hora === nueva.hora` is equality of `Hora`.
* A calendar date is the text `YYYY-MM-DD`; it is represented by its day number
  counted from 1970-01-01 (day 0, a Thursday).
* A JavaScript `Date` is `Option Int`: milliseconds since the epoch, `none` for
  an Invalid Date.  The host zone is a fixed offset `tz` (minutes that local
  time is ahead of UTC); `new Date()` is the parameter `ahora`.
* The JSON collections are lists; each route receives the collections it reads
  and returns the collection it writes.
* An object used as a dictionary (`conteo = {}`) is the list of its own
  properties in creation order, read and written through `leer` and `asignar`,
  which account for the members inherited from `Object.prototype`.
-/

namespace Citas

/-! ## Data model -/

/-- Time of day `HH:MM`, as the hour and minute numbers of the text. -/
structure Hora where
  h : Nat
  m : Nat
deriving DecidableEq, Repr

/-- Calendar date `YYYY-MM-DD`, as days since 1970-01-01. -/
abbrev Fecha := Int

/-- Record of `pacientes.json`. -/
structure Paciente where
  id : String
  nombre : String
  edad : Int
  telefono : String
  email : String
deriving DecidableEq, Repr

/-- Record of `doctores.json`. -/
structure Doctor where
  id : String
  nombre : String
  especialidad : String
  horarioInicio : Hora
  horarioFin : Hora
  diasDisponibles : List String
deriving DecidableEq, Repr

/-- Record of `citas.json`. -/
structure Cita where
  id : String
  pacienteId : String
  doctorId : String
  fecha : Fecha
  hora : Hora
  estado : String
deriving DecidableEq, Repr

/-- Body of `POST /citas`; an absent field is `none`. -/
structure Solicitud where
  id : Option String
  pacienteId : Option String
  doctorId : Option String
  fecha : Option Fecha
  hora : Option Hora
deriving DecidableEq, Repr

/-- The rejections of the routes, one per error message of the source. -/
inductive Rechazo where
  /-- Status 400 "Faltan datos obligatorios" / "Falta fecha u hora". -/
  | faltanDatos
  /-- Status 400 "El paciente no existe". -/
  | pacienteNoExiste
  /-- Status 400 "El doctor no existe". -/
  | doctorNoExiste
  /-- Status 400 "La fecha y hora deben ser futuras". -/
  | fechaPasada
  /-- Status 400 "El doctor no está disponible el día ...", with the day of the message. -/
  | diaNoDisponible (dia : Option String)
  /-- Status 400 "La hora debe estar entre ... y ...". -/
  | fueraDeHorario
  /-- Status 400 "El doctor ya tiene una cita en esa hora". -/
  | horarioOcupado
  /-- Status 404 "Cita no encontrada". -/
  | citaNoEncontrada
  /-- Status 400 "Solo se pueden cancelar citas programadas". -/
  | noProgramada
  /-- Status 500, an exception reached the `catch` of the route. -/
  | errorInterno
deriving DecidableEq, Repr

/-- Outcome of a route: the payload of the success response or the rejection. -/
inductive Resultado (α : Type) where
  | ok (valor : α)
  | rechazo (r : Rechazo)
deriving DecidableEq, Repr

/-- The spec's `DoctorUnavailableError`: wrong weekday or outside the window. -/
def Rechazo.esDoctorNoDisponible : Rechazo → Bool
  | .diaNoDisponible _ => true
  | .fueraDeHorario => true
  | _ => false

/-! ## Time and calendar -/

/-- Milliseconds in a minute. -/
def msMinuto : Int := 60000

/-- Milliseconds in a day. -/
def msDia : Int := 86400000

/-- Model of `new Date(fecha + "T" + hora)`: a date-time text without offset is local
time.  Hours 0..23 with minutes 0..59 are valid, and so is `24:00`. -/
def nuevaFecha (tz : Int) (fecha : Fecha) (hora : Hora) : Option Int :=
  if (hora.h < 24 ∧ hora.m < 60) ∨ (hora.h = 24 ∧ hora.m = 0) then
    some ((fecha * 1440 + (hora.h : Int) * 60 + (hora.m : Int) - tz) * msMinuto)
  else none

/-- Model of `Date.prototype.getDay()`: weekday of the local date, 0 = Sunday. -/
def getDay (tz : Int) (t : Int) : Nat :=
  (((t + tz * msMinuto) / msDia + 4) % 7).toNat

/-- Model of `toISOString().split("T")[0]`: the UTC calendar date of an instant. -/
def isoFecha (t : Int) : Fecha := t / msDia

/-- Model of `new Date(c.fecha)`: a date-only text is midnight UTC. -/
def fechaUTC (fecha : Fecha) : Int := fecha * msDia

/-- The array `dias` of the routes. -/
def dias : List String :=
  ["Domingo", "Lunes", "Martes", "Miercoles", "Jueves", "Viernes", "Sabado"]

/-- The expression `dias[fechaCita.getDay()]`; `undefined` (here `none`) for an Invalid Date. -/
def diaDe (tz : Int) (fechaCita : Option Int) : Option String :=
  match fechaCita with
  | some t => dias[getDay tz t]?
  | none => none

/-- The value `hX * 60 + mX` after `split(":").map(Number)`. -/
def minutos (hora : Hora) : Nat := hora.h * 60 + hora.m

/-- The comparison `fechaCita <= ahora`; every comparison with an Invalid Date is false. -/
def instanteLe (fechaCita : Option Int) (ahora : Int) : Bool :=
  match fechaCita with
  | some t => decide (t ≤ ahora)
  | none => false

/-- The comparison `fechaCita >= ahora`; every comparison with an Invalid Date is false. -/
def instanteGe (fechaCita : Option Int) (ahora : Int) : Bool :=
  match fechaCita with
  | some t => decide (ahora ≤ t)
  | none => false

/-! ## POST /citas -/

/-- The required-field test `!nueva.id || ... || !nueva.hora`: the five values
when all are present and no identifier is the empty text. -/
def campos (nueva : Solicitud) : Option (String × String × String × Fecha × Hora) :=
  match nueva.id, nueva.pacienteId, nueva.doctorId, nueva.fecha, nueva.hora with
  | some id, some pacienteId, some doctorId, some fecha, some hora =>
    if id = "" ∨ pacienteId = "" ∨ doctorId = "" then none
    else some (id, pacienteId, doctorId, fecha, hora)
  | _, _, _, _, _ => none

/-- The test `doctor.diasDisponibles.includes(diaCita)`. -/
def incluyeDia (diasDisponibles : List String) (diaCita : Option String) : Bool :=
  match diaCita with
  | some d => diasDisponibles.contains d
  | none => false

/-- Handler of `POST /citas`: the created record and the saved collection. -/
def crearCita (tz ahora : Int) (pacientes : List Paciente) (doctores : List Doctor)
    (citas : List Cita) (nueva : Solicitud) : Resultado (Cita × List Cita) :=
  match campos nueva with
  | none => .rechazo .faltanDatos
  | some (id, pacienteId, doctorId, fecha, hora) =>
    match pacientes.find? (fun p => p.id == pacienteId) with
    | none => .rechazo .pacienteNoExiste
    | some _ =>
      match doctores.find? (fun d => d.id == doctorId) with
      | none => .rechazo .doctorNoExiste
      | some doctor =>
        let fechaCita := nuevaFecha tz fecha hora
        if instanteLe fechaCita ahora then .rechazo .fechaPasada
        else
          let diaCita := diaDe tz fechaCita
          if !incluyeDia doctor.diasDisponibles diaCita then
            .rechazo (.diaNoDisponible diaCita)
          else
            let minutosInicio := minutos doctor.horarioInicio
            let minutosFin := minutos doctor.horarioFin
            let minutosCita := minutos hora
            if minutosCita < minutosInicio || minutosCita ≥ minutosFin then
              .rechazo .fueraDeHorario
            else
              match fechaCita with
              | none => .rechazo .errorInterno
              | some t =>
                let fechaStr := isoFecha t
                if citas.any (fun c =>
                    c.doctorId == doctorId &&
                    isoFecha (fechaUTC c.fecha) == fechaStr &&
                    c.hora == hora) then
                  .rechazo .horarioOcupado
                else
                  let creada : Cita :=
                    { id := id, pacienteId := pacienteId, doctorId := doctorId,
                      fecha := fecha, hora := hora, estado := "programada" }
                  .ok (creada, citas ++ [creada])

/-! ## PUT /citas/:id/cancelar -/

/-- Handler of `PUT /citas/:id/cancelar`: the updated record and the saved
collection. -/
def cancelarCita (citas : List Cita) (id : String) : Resultado (Cita × List Cita) :=
  match citas.findIdx? (fun c => c.id == id) with
  | none => .rechazo .citaNoEncontrada
  | some idx =>
    match citas[idx]? with
    | none => .rechazo .errorInterno
    | some c =>
      if c.estado != "programada" then .rechazo .noProgramada
      else
        let cancelada : Cita := { c with estado := "cancelada" }
        .ok (cancelada, citas.set idx cancelada)

/-! ## GET /estadisticas/doctores and GET /estadisticas/especialidades -/

/-- A value stored in the object `conteo` or read from it. -/
inductive Valor where
  /-- A number. -/
  | num (n : Nat)
  /-- With `sumas = 0`, the member `nombre` that `{}` inherits from
  `Object.prototype`: a built-in function, or `Object.prototype` itself for
  `__proto__`.  With `sumas > 0`, the text of that member followed by `sumas`
  characters "1", which is what `+ 1` makes of it. -/
  | heredado (nombre : String) (sumas : Nat)
deriving DecidableEq, Repr

/-- The names of the members that the object `{}` inherits from
`Object.prototype`. -/
def miembrosHeredados : List String :=
  ["constructor", "__defineGetter__", "__defineSetter__", "hasOwnProperty",
   "__lookupGetter__", "__lookupSetter__", "isPrototypeOf", "propertyIsEnumerable",
   "toString", "valueOf", "__proto__", "toLocaleString"]

/-- The object `conteo = {}`: its own properties in creation order. -/
abbrev Objeto := List (String × Valor)

/-- The value of the own property `k`, `none` when the object has none. -/
def propia : Objeto → String → Option Valor
  | [], _ => none
  | (k', v) :: o, k => if k' = k then some v else propia o k

/-- Write of the own property `k`: an existing property keeps its place, a new
one is created last. -/
def ponerPropia : Objeto → String → Valor → Objeto
  | [], k, v => [(k, v)]
  | (k', v') :: o, k, v => if k' = k then (k, v) :: o else (k', v') :: ponerPropia o k v

/-- Property read `conteo[k]`; `undefined` is `none`.  The key `__proto__` is an
accessor and yields `Object.prototype`; any other key yields the own property,
else the inherited member of that name, else `undefined`. -/
def leer (o : Objeto) (k : String) : Option Valor :=
  if k = "__proto__" then some (.heredado "__proto__" 0)
  else
    match propia o k with
    | some v => some v
    | none => if k ∈ miembrosHeredados then some (.heredado k 0) else none

/-- Property write `conteo[k] = v` of a number or a text.  The setter of
`__proto__` ignores such a value and no property is created; any other key
gets an own property (the inherited members are writable). -/
def asignar (o : Objeto) (k : String) (v : Valor) : Objeto :=
  if k = "__proto__" then o else ponerPropia o k v

/-- The value of `x + 1`: the next number, or the text of `x` followed by "1". -/
def masUno : Valor → Valor
  | .num n => .num (n + 1)
  | .heredado nombre sumas => .heredado nombre (sumas + 1)

/-- The value of `x || 0`: `undefined` and the number 0 give 0, every other
value is truthy and is kept. -/
def oCero : Option Valor → Valor
  | none => .num 0
  | some (.num 0) => .num 0
  | some v => v

/-- Entry `{ doctor: d, citas: conteo[d.id] }` of the doctor statistics. -/
structure EntradaDoctor where
  doctor : Doctor
  citas : Option Valor
deriving DecidableEq, Repr

/-- Handler of `GET /estadisticas/doctores`. -/
def estadisticasDoctores (doctores : List Doctor) (citas : List Cita) : List EntradaDoctor :=
  let conteo0 : Objeto := doctores.foldl (fun conteo d => asignar conteo d.id (.num 0)) []
  let conteo : Objeto := citas.foldl (fun conteo c =>
    if c.estado == "programada" then
      match leer conteo c.doctorId with
      | some v => asignar conteo c.doctorId (masUno v)
      | none => conteo
    else conteo) conteo0
  doctores.map (fun d => { doctor := d, citas := leer conteo d.id })

/-- Value of a text of decimal digits. -/
def valorDecimal (cs : List Char) : Nat :=
  cs.foldl (fun n c => 10 * n + (c.toNat - 48)) 0

/-- Whether a property key is an array index: the canonical decimal text of an
integer below `2^32 - 1`. -/
def esIndice (k : String) : Bool :=
  match k.data with
  | [] => false
  | c :: cs =>
    (c :: cs).all Char.isDigit && (cs.isEmpty || c != '0') &&
      decide (valorDecimal (c :: cs) < 4294967295)

/-- Model of `Object.entries(conteo)`: the own properties, array-index keys in
ascending numeric order, then the other keys in creation order. -/
def entradas (conteo : Objeto) : List (String × Valor) :=
  (conteo.filter (fun e => esIndice e.1)).insertionSort
      (fun a b => valorDecimal a.1.data ≤ valorDecimal b.1.data) ++
    conteo.filter (fun e => !esIndice e.1)

/-- The tally `conteo` of `GET /estadisticas/especialidades`. -/
def conteoEspecialidades (doctores : List Doctor) (citas : List Cita) : Objeto :=
  citas.foldl (fun conteo c =>
    if c.estado == "programada" then
      match doctores.find? (fun d => d.id == c.doctorId) with
      | some doctor =>
        asignar conteo doctor.especialidad (masUno (oCero (leer conteo doctor.especialidad)))
      | none => conteo
    else conteo) []

/-- The loop `for (const [esp, cant] of ...) if (cant > maxCitas) ...`, from the
state `(maxSolicitada, maxCitas)`.  A text that came from an inherited member is
not a number, so `cant > maxCitas` is false for it. -/
def buscarMaximo (es : List (String × Valor)) (inicial : Option String × Nat) :
    Option String × Nat :=
  es.foldl (fun estado e =>
    match e.2 with
    | .num cant => if cant > estado.2 then (some e.1, cant) else estado
    | .heredado _ _ => estado) inicial

/-- Handler of `GET /estadisticas/especialidades`: `(especialidad, citas)`. -/
def especialidadMasSolicitada (doctores : List Doctor) (citas : List Cita) :
    Option String × Nat :=
  buscarMaximo (entradas (conteoEspecialidades doctores citas)) (none, 0)

/-! ## GET /doctores/disponibles -/

/-- Characters removed by `String.prototype.trim`: white space and line
terminators. -/
def esBlanco (c : Char) : Bool :=
  let n := c.toNat
  (9 ≤ n && n ≤ 13) || n == 32 || n == 160 || n == 5760 || (8192 ≤ n && n ≤ 8202) ||
    n == 8232 || n == 8233 || n == 8239 || n == 8287 || n == 12288 || n == 65279

/-- Model of `String.prototype.trim`. -/
def trim (s : String) : String :=
  String.mk ((s.data.dropWhile esBlanco).reverse.dropWhile esBlanco).reverse

/-- Model of `String.prototype.toLowerCase` on the letters A..Z.  The result is only
compared with lower-cased names of `dias`, which no other letter maps into. -/
def toLowerCase (s : String) : String :=
  String.mk (s.data.map Char.toLower)

/-- The callback of `doctores.filter` in `GET /doctores/disponibles`. -/
def estaDisponible (citas : List Cita) (fecha : Fecha) (hora : Hora) (diaCita : String)
    (d : Doctor) : Bool :=
  let diasDoc := d.diasDisponibles.map (fun x => trim (toLowerCase x))
  if !diasDoc.contains (toLowerCase diaCita) then false
  else
    let hInicio := d.horarioInicio.h
    let mInicio := d.horarioInicio.m
    let hFin := if d.horarioFin.h = 24 then 23 else d.horarioFin.h
    let mFin := d.horarioFin.m
    let minutosInicio := hInicio * 60 + mInicio
    let minutosFin := hFin * 60 + mFin
    let minutosCita := hora.h * 60 + hora.m
    if minutosCita < minutosInicio || minutosCita ≥ minutosFin then false
    else
      let ocupado := citas.any (fun c =>
        c.doctorId == d.id && c.fecha == fecha && c.hora == hora &&
          c.estado == "programada")
      !ocupado

/-- Handler of `GET /doctores/disponibles`.  For an Invalid Date `diaCita` is
`undefined` and `diaCita.toLowerCase()` throws in the first callback call. -/
def doctoresDisponibles (tz : Int) (doctores : List Doctor) (citas : List Cita)
    (fecha : Option Fecha) (hora : Option Hora) : Resultado (List Doctor) :=
  match fecha, hora with
  | some fecha, some hora =>
    match diaDe tz (nuevaFecha tz fecha hora) with
    | none => if doctores.isEmpty then .ok [] else .rechazo .errorInterno
    | some diaCita => .ok (doctores.filter (estaDisponible citas fecha hora diaCita))
  | _, _ => .rechazo .faltanDatos

/-- The weekday test of `GET /doctores/disponibles`: the lower-cased day is one
of the doctor's days after lower-casing and trimming them. -/
def atiendeDia (d : Doctor) (dia : String) : Bool :=
  (d.diasDisponibles.map (fun x => trim (toLowerCase x))).contains (toLowerCase dia)

/-- The end minute that `GET /doctores/disponibles` uses for a doctor, after
`if (hFin === 24) hFin = 23`. -/
def minutosFinAjustado (d : Doctor) : Nat :=
  (if d.horarioFin.h = 24 then 23 else d.horarioFin.h) * 60 + d.horarioFin.m

/-- The time-window test of `GET /doctores/disponibles`. -/
def enVentana (d : Doctor) (hora : Hora) : Bool :=
  decide (minutos d.horarioInicio ≤ minutos hora) && decide (minutos hora < minutosFinAjustado d)

/-- A scheduled appointment of the doctor exists at exactly the slot. -/
def TieneCitaProgramada (citas : List Cita) (doctorId : String) (fecha : Fecha)
    (hora : Hora) : Prop :=
  ∃ c ∈ citas, c.doctorId = doctorId ∧ c.fecha = fecha ∧ c.hora = hora ∧
    c.estado = "programada"

/-! ## GET /citas/proximas -/

/-- Handler of `GET /citas/proximas`. -/
def citasProximas (tz ahora : Int) (citas : List Cita) : List Cita :=
  let fin := ahora + 24 * 60 * 60 * 1000
  citas.filter (fun c =>
    let fechaCita := nuevaFecha tz c.fecha c.hora
    c.estado == "programada" && instanteGe fechaCita ahora && instanteLe fechaCita fin)

/-- Weekday name of a calendar date (`WeekdayOf`); day 0 is a Thursday. -/
def diaSemana (fecha : Fecha) : Option String :=
  dias[((fecha + 4) % 7).toNat]?

/-! ## The checks of CreateAppointment, stated one by one

Each check is a condition on the request and the store on its own, whether or
not the checks before it pass. -/

/-- Truthiness of an optional text field: present and not the empty text. -/
def presente (campo : Option String) : Bool :=
  match campo with
  | some s => s != ""
  | none => false

/-- Check 0 fails: a required field is missing. -/
def faltaCampo (nueva : Solicitud) : Bool :=
  !presente nueva.id || !presente nueva.pacienteId || !presente nueva.doctorId ||
    nueva.fecha.isNone || nueva.hora.isNone

/-- Check 1 fails: no patient has the requested `pacienteId`. -/
def pacienteNoEncontrado (pacientes : List Paciente) (nueva : Solicitud) : Bool :=
  !pacientes.any (fun p => some p.id == nueva.pacienteId)

/-- The doctor of the request: the first one with the requested `doctorId`. -/
def doctorDe (doctores : List Doctor) (nueva : Solicitud) : Option Doctor :=
  doctores.find? (fun d => some d.id == nueva.doctorId)

/-- Check 2 fails: no doctor has the requested `doctorId`. -/
def doctorNoEncontrado (doctores : List Doctor) (nueva : Solicitud) : Bool :=
  (doctorDe doctores nueva).isNone

/-- The combined date-time of the request. -/
def instanteDe (tz : Int) (nueva : Solicitud) : Option Int :=
  match nueva.fecha, nueva.hora with
  | some fecha, some hora => nuevaFecha tz fecha hora
  | _, _ => none

/-- Check 3 fails: the combined date-time is not later than `ahora`. -/
def noEsFutura (tz ahora : Int) (nueva : Solicitud) : Bool :=
  instanteLe (instanteDe tz nueva) ahora

/-- Check 4a fails: the weekday of the request is not one of the doctor's. -/
def diaNoAtendido (tz : Int) (doctores : List Doctor) (nueva : Solicitud) : Bool :=
  match doctorDe doctores nueva with
  | some doctor => !incluyeDia doctor.diasDisponibles (diaDe tz (instanteDe tz nueva))
  | none => true

/-- Check 4b fails: the time is outside `[horarioInicio, horarioFin)`. -/
def horaFueraDeVentana (doctores : List Doctor) (nueva : Solicitud) : Bool :=
  match doctorDe doctores nueva, nueva.hora with
  | some doctor, some hora =>
    decide (minutos hora < minutos doctor.horarioInicio) ||
      decide (minutos doctor.horarioFin ≤ minutos hora)
  | _, _ => true

/-- Check 5 fails: the conflict test of `POST /citas` finds an appointment. -/
def horarioTomado (tz : Int) (citas : List Cita) (nueva : Solicitud) : Bool :=
  citas.any (fun c =>
    some c.doctorId == nueva.doctorId &&
    some (isoFecha (fechaUTC c.fecha)) == (instanteDe tz nueva).map isoFecha &&
    some c.hora == nueva.hora)

/-- The checks in the order of the specification, each with its rejection. -/
def chequeos (tz ahora : Int) (pacientes : List Paciente) (doctores : List Doctor)
    (citas : List Cita) (nueva : Solicitud) : List (Bool × Rechazo) :=
  [ (faltaCampo nueva, .faltanDatos),
    (pacienteNoEncontrado pacientes nueva, .pacienteNoExiste),
    (doctorNoEncontrado doctores nueva, .doctorNoExiste),
    (noEsFutura tz ahora nueva, .fechaPasada),
    (diaNoAtendido tz doctores nueva, .diaNoDisponible (diaDe tz (instanteDe tz nueva))),
    (horaFueraDeVentana doctores nueva, .fueraDeHorario),
    (horarioTomado tz citas nueva, .horarioOcupado) ]

/-- The rejection of the earliest failing check, `none` when no check fails. -/
def primerRechazo (tz ahora : Int) (pacientes : List Paciente) (doctores : List Doctor)
    (citas : List Cita) (nueva : Solicitud) : Option Rechazo :=
  ((chequeos tz ahora pacientes doctores citas nueva).find? (fun q => q.1)).map (fun q => q.2)

/-- Every record that repeats the identifier of an earlier record is scheduled:
`findIndex` never reaches such a record, so it can never be cancelled. -/
def RepetidasProgramadas (citas : List Cita) : Prop :=
  citas.Pairwise (fun a b => a.id = b.id → b.estado = "programada")

/-- No two stored appointments with `estado` "programada" have the same doctor,
date and time. -/
def SinDobleReserva (citas : List Cita) : Prop :=
  citas.Pairwise (fun a b =>
    ¬ (a.estado = "programada" ∧ b.estado = "programada" ∧ a.doctorId = b.doctorId ∧
      a.fecha = b.fecha ∧ a.hora = b.hora))

/-- Number of appointments with `estado` "programada" that reference a doctor
identifier. -/
def citasProgramadasDe (citas : List Cita) (doctorId : String) : Nat :=
  citas.countP (fun c => c.estado == "programada" && c.doctorId == doctorId)

/-- Number of appointments with `estado` "programada". -/
def totalProgramadas (citas : List Cita) : Nat :=
  citas.countP (fun c => c.estado == "programada")

/-- The number that a value is, 0 for a value that is not a number. -/
def peso : Valor → Nat
  | .num n => n
  | .heredado _ _ => 0

/-- Sum of the numeric counts of the doctor statistics. -/
def sumaConteos (es : List EntradaDoctor) : Nat :=
  (es.map (fun e => peso (e.citas.getD (.num 0)))).sum

/-- The specialties of the appointments with `estado` "programada", joined
through `doctores.find`, in the order in which `citas` is iterated; an
appointment whose doctor is not stored contributes nothing. -/
def especialidadesProgramadas (doctores : List Doctor) (citas : List Cita) : List String :=
  citas.filterMap (fun c =>
    if c.estado == "programada" then
      (doctores.find? (fun d => d.id == c.doctorId)).map (fun d => d.especialidad)
    else none)

/-- Tally of a specialty: the number of scheduled appointments whose doctor has
that specialty. -/
def citasDeEspecialidad (doctores : List Doctor) (citas : List Cita) (esp : String) : Nat :=
  (especialidadesProgramadas doctores citas).count esp

/-- One step of the tally loop: `conteo[esp] = (conteo[esp] || 0) + 1`. -/
def contarUna (conteo : Objeto) (esp : String) : Objeto :=
  asignar conteo esp (masUno (oCero (leer conteo esp)))

/-! ## Sequences of operations on the appointment collection -/

/-- A serialized request that writes `citas.json`. -/
inductive Operacion where
  /-- Request `POST /citas` handled at the moment `ahora`. -/
  | crear (ahora : Int) (nueva : Solicitud)
  /-- Request `PUT /citas/:id/cancelar`. -/
  | cancelar (id : String)
deriving DecidableEq, Repr

/-- The collection saved by one request; a rejected request saves nothing. -/
def ejecutar (tz : Int) (pacientes : List Paciente) (doctores : List Doctor)
    (citas : List Cita) : Operacion → List Cita
  | .crear ahora nueva =>
    match crearCita tz ahora pacientes doctores citas nueva with
    | .ok (_, guardadas) => guardadas
    | .rechazo _ => citas
  | .cancelar id =>
    match cancelarCita citas id with
    | .ok (_, guardadas) => guardadas
    | .rechazo _ => citas

/-- The collection after a finite sequence of serialized requests. -/
def ejecutarTodas (tz : Int) (pacientes : List Paciente) (doctores : List Doctor)
    (citas : List Cita) (ops : List Operacion) : List Cita :=
  ops.foldl (ejecutar tz pacientes doctores) citas

/-! ## Concrete scenarios -/

/-- A patient. -/
def pAna : Paciente :=
  { id := "p1", nombre := "Ana", edad := 30, telefono := "555", email := "ana@example.org" }

/-- The doctor of the scenario of the specification: Mondays, 09:00 to 12:00. -/
def dGarcia : Doctor :=
  { id := "d1", nombre := "Garcia", especialidad := "Cardiologia",
    horarioInicio := ⟨9, 0⟩, horarioFin := ⟨12, 0⟩, diasDisponibles := ["Lunes"] }

/-- A doctor with an afternoon window, Mondays 14:00 to 22:00. -/
def dTarde : Doctor :=
  { id := "d2", nombre := "Tarde", especialidad := "Pediatria",
    horarioInicio := ⟨14, 0⟩, horarioFin := ⟨22, 0⟩, diasDisponibles := ["Lunes"] }

/-- A doctor whose window ends at the end of the day, Mondays 08:00 to 24:00. -/
def dNoche : Doctor :=
  { id := "d3", nombre := "Noche", especialidad := "Urgencias",
    horarioInicio := ⟨8, 0⟩, horarioFin := ⟨24, 0⟩, diasDisponibles := ["Lunes"] }

/-- The date 2030-01-07, a Monday: day 21921 after 1970-01-01. -/
def lunes : Fecha := 21921

/-- The date 2026-11-07: day 20764 after 1970-01-01. -/
def manana : Fecha := 20764

/-- The moment 2026-11-06T00:00:00Z in milliseconds since the epoch, used as the
current time of the scenarios. -/
def ahoraEjemplo : Int := 1793923200000

end Citas

open Citas

/-! ## C1: conflict detection of POST /citas -/

/-- C1 (code defect): the slot Monday 11:30 of doctor `d1` is held only by a
cancelled appointment and the request passes every earlier check, yet
`POST /citas` rejects it with "El doctor ya tiene una cita en esa hora": the
conflict test of `POST /citas` does not look at `estado`, while the one of
`GET /doctores/disponibles` does and reports the doctor as free. -/
theorem c1_cita_cancelada_bloquea_horario :
    (∀ c ∈ [(⟨"c0", "p1", "d1", lunes, ⟨11, 30⟩, "cancelada"⟩ : Cita)],
        c.estado ≠ "programada") ∧
    crearCita 0 ahoraEjemplo [pAna] [dGarcia] [⟨"c0", "p1", "d1", lunes, ⟨11, 30⟩, "cancelada"⟩]
        ⟨some "c1", some "p1", some "d1", some lunes, some ⟨11, 30⟩⟩
      = .rechazo .horarioOcupado ∧
    doctoresDisponibles 0 [dGarcia] [⟨"c0", "p1", "d1", lunes, ⟨11, 30⟩, "cancelada"⟩]
        (some lunes) (some ⟨11, 30⟩)
      = .ok [dGarcia] := by
  decide

/-! ## C2: no double booking -/

/-- C2 (code defect): on a host five hours behind UTC, two requests for doctor
`d2` on Monday at 20:00 are both accepted from the empty collection, leaving two
scheduled appointments in the same slot: `fechaStr` is the UTC date of the local
date-time (Tuesday) while the stored `fecha` is read as a UTC date (Monday). -/
theorem c2_doble_reserva_fuera_de_utc :
    crearCita (-300) ahoraEjemplo [pAna] [dTarde] []
        ⟨some "c1", some "p1", some "d2", some lunes, some ⟨20, 0⟩⟩
      = .ok (⟨"c1", "p1", "d2", lunes, ⟨20, 0⟩, "programada"⟩,
          [⟨"c1", "p1", "d2", lunes, ⟨20, 0⟩, "programada"⟩]) ∧
    crearCita (-300) ahoraEjemplo [pAna] [dTarde] [⟨"c1", "p1", "d2", lunes, ⟨20, 0⟩, "programada"⟩]
        ⟨some "c2", some "p1", some "d2", some lunes, some ⟨20, 0⟩⟩
      = .ok (⟨"c2", "p1", "d2", lunes, ⟨20, 0⟩, "programada"⟩,
          [⟨"c1", "p1", "d2", lunes, ⟨20, 0⟩, "programada"⟩,
           ⟨"c2", "p1", "d2", lunes, ⟨20, 0⟩, "programada"⟩]) ∧
    ejecutarTodas (-300) [pAna] [dTarde] []
        [.crear ahoraEjemplo ⟨some "c1", some "p1", some "d2", some lunes, some ⟨20, 0⟩⟩,
         .crear ahoraEjemplo ⟨some "c2", some "p1", some "d2", some lunes, some ⟨20, 0⟩⟩]
      = [⟨"c1", "p1", "d2", lunes, ⟨20, 0⟩, "programada"⟩,
         ⟨"c2", "p1", "d2", lunes, ⟨20, 0⟩, "programada"⟩] := by
  decide

/-! ## C10: end-of-day window in GET /doctores/disponibles -/

/-- C10 (code defect): for the window 08:00 to 24:00 the adjustment
`if (hFin === 24) hFin = 23` leaves the minutes untouched, so the effective end
is minute 1380 (23:00) and not 1439: at 23:30 on an available Monday with no
appointment the doctor is not returned, although 480 <= 1410 < 1439, while
`POST /citas` accepts a booking of that doctor at 23:30. -/
theorem c10_fin_de_dia_recorta_una_hora :
    doctoresDisponibles 0 [dNoche] [] (some lunes) (some ⟨23, 30⟩) = .ok [] ∧
    doctoresDisponibles 0 [dNoche] [] (some lunes) (some ⟨22, 59⟩) = .ok [dNoche] ∧
    doctoresDisponibles 0 [dNoche] [] (some lunes) (some ⟨23, 0⟩) = .ok [] ∧
    minutos dNoche.horarioInicio ≤ minutos ⟨23, 30⟩ ∧ minutos ⟨23, 30⟩ < 1439 ∧
    crearCita 0 ahoraEjemplo [pAna] [dNoche] []
        ⟨some "c1", some "p1", some "d3", some lunes, some ⟨23, 30⟩⟩
      = .ok (⟨"c1", "p1", "d3", lunes, ⟨23, 30⟩, "programada"⟩,
          [⟨"c1", "p1", "d3", lunes, ⟨23, 30⟩, "programada"⟩]) := by
  decide

/-! ## C7: upcoming appointments -/

/-- C7 (counterexample): at 2026-11-06T00:00Z a scheduled appointment on
2026-11-07 at 00:00 is exactly 24 hours after `ahora` and is returned: the
window of `GET /citas/proximas` is closed at its end. -/
theorem c7_cita_a_24_horas_incluida :
    nuevaFecha 0 manana ⟨0, 0⟩ = some (ahoraEjemplo + 24 * 60 * 60 * 1000) ∧
    citasProximas 0 ahoraEjemplo [⟨"c1", "p1", "d1", manana, ⟨0, 0⟩, "programada"⟩]
      = [⟨"c1", "p1", "d1", manana, ⟨0, 0⟩, "programada"⟩] := by
  decide

/-- C7 (amended): `GET /citas/proximas` returns, in stored order, exactly the
appointments with `estado` "programada" whose combined date-time `t` is valid and
satisfies `ahora <= t <= ahora + 24 h` (both ends included); no appointment with
`estado` "cancelada" is returned. -/
theorem c7_citasProximas_ventana_cerrada (tz ahora : Int) (citas : List Cita) :
    (∃ p : Cita → Bool,
      citasProximas tz ahora citas = citas.filter p ∧
      ∀ c, p c = true ↔
        (c.estado = "programada" ∧
          ∃ t, nuevaFecha tz c.fecha c.hora = some t ∧ ahora ≤ t ∧ t ≤ ahora + 86400000)) ∧
    (∀ c, c ∈ citasProximas tz ahora citas ↔
      (c ∈ citas ∧ c.estado = "programada" ∧
        ∃ t, nuevaFecha tz c.fecha c.hora = some t ∧ ahora ≤ t ∧ t ≤ ahora + 86400000)) ∧
    (∀ c ∈ citasProximas tz ahora citas, c.estado ≠ "cancelada") := by
  have hp : ∀ c : Cita,
      (c.estado == "programada" && instanteGe (nuevaFecha tz c.fecha c.hora) ahora &&
          instanteLe (nuevaFecha tz c.fecha c.hora) (ahora + 24 * 60 * 60 * 1000)) = true ↔
        (c.estado = "programada" ∧
          ∃ t, nuevaFecha tz c.fecha c.hora = some t ∧ ahora ≤ t ∧ t ≤ ahora + 86400000) := by
    intro c
    cases h : nuevaFecha tz c.fecha c.hora with
    | none => simp [instanteGe, instanteLe]
    | some t => simp [instanteGe, instanteLe, and_assoc]
  refine ⟨⟨_, rfl, hp⟩, ?_, ?_⟩
  · intro c
    unfold citasProximas
    rw [List.mem_filter, hp]
  · intro c hc
    unfold citasProximas at hc
    rw [List.mem_filter, hp] at hc
    rw [hc.2.1]
    decide

/-! ## C3: the availability window of POST /citas is half-open -/

/-- For a time of day 00:00..23:59 the date-time is valid, and its local weekday
is the weekday of the calendar date, whatever the zone of the host. -/
theorem diaDe_nuevaFecha (tz : Int) (fecha : Fecha) (hora : Hora)
    (hh : hora.h < 24) (hm : hora.m < 60) :
    diaDe tz (nuevaFecha tz fecha hora) = diaSemana fecha := by
  have hv : (hora.h < 24 ∧ hora.m < 60) ∨ (hora.h = 24 ∧ hora.m = 0) := Or.inl ⟨hh, hm⟩
  simp only [nuevaFecha, hv, if_true, diaDe, diaSemana, getDay, msMinuto, msDia]
  have key : ∀ f : Int, ((f * 1440 + (hora.h : Int) * 60 + (hora.m : Int) - tz) * 60000
      + tz * 60000) / 86400000 = f := by
    intro f; omega
  rw [key fecha]

/-- The required-field test passes when the five fields are present and the
identifiers are not empty. -/
theorem campos_presentes (id pacienteId doctorId : String) (fecha : Fecha) (hora : Hora)
    (hid : id ≠ "") (hpid : pacienteId ≠ "") (hdid : doctorId ≠ "") :
    campos ⟨some id, some pacienteId, some doctorId, some fecha, some hora⟩
      = some (id, pacienteId, doctorId, fecha, hora) := by
  simp [campos, hid, hpid, hdid]

/-- C3: in `POST /citas`, for a request that names an existing patient and an
existing doctor and whose date-time is strictly in the future: when the time of
day is well formed and the weekday of the date is one of the doctor's days, a
time with `inicio <= T < fin` (in minutes of the day) passes the availability
check (the request is accepted or only the conflict test rejects it) and every
other time is rejected as outside the window; a time equal to `horarioFin` is
always rejected as doctor-unavailable.  The window is half-open. -/
theorem c3_ventana_semiabierta (tz ahora : Int) (pacientes : List Paciente)
    (doctores : List Doctor) (citas : List Cita) (id pacienteId doctorId : String)
    (fecha : Fecha) (hora : Hora) (paciente : Paciente) (doctor : Doctor)
    (hid : id ≠ "") (hpid : pacienteId ≠ "") (hdid : doctorId ≠ "")
    (hpac : pacientes.find? (fun p => p.id == pacienteId) = some paciente)
    (hdoc : doctores.find? (fun d => d.id == doctorId) = some doctor)
    (hfut : ∀ t, nuevaFecha tz fecha hora = some t → ahora < t) :
    (hora.h < 24 ∧ hora.m < 60 →
      (∃ dia, diaSemana fecha = some dia ∧ dia ∈ doctor.diasDisponibles) →
      ((minutos doctor.horarioInicio ≤ minutos hora ∧
          minutos hora < minutos doctor.horarioFin →
        (∃ v, crearCita tz ahora pacientes doctores citas
            ⟨some id, some pacienteId, some doctorId, some fecha, some hora⟩ = .ok v) ∨
        crearCita tz ahora pacientes doctores citas
            ⟨some id, some pacienteId, some doctorId, some fecha, some hora⟩
          = .rechazo .horarioOcupado) ∧
       (¬ (minutos doctor.horarioInicio ≤ minutos hora ∧
          minutos hora < minutos doctor.horarioFin) →
        crearCita tz ahora pacientes doctores citas
            ⟨some id, some pacienteId, some doctorId, some fecha, some hora⟩
          = .rechazo .fueraDeHorario))) ∧
    (hora = doctor.horarioFin →
      ∃ e, crearCita tz ahora pacientes doctores citas
            ⟨some id, some pacienteId, some doctorId, some fecha, some hora⟩ = .rechazo e ∧
        e.esDoctorNoDisponible = true) := by
  have hle : instanteLe (nuevaFecha tz fecha hora) ahora = false := by
    cases h : nuevaFecha tz fecha hora with
    | none => rfl
    | some t =>
      have := hfut t h
      simp [instanteLe]; omega
  constructor
  · rintro ⟨hh, hm⟩ hdia
    have hd : incluyeDia doctor.diasDisponibles (diaDe tz (nuevaFecha tz fecha hora)) = true := by
      rw [diaDe_nuevaFecha tz fecha hora hh hm]
      obtain ⟨d, hds, hd⟩ := hdia
      rw [hds]
      simpa [incluyeDia] using hd
    have hv : ∃ t, nuevaFecha tz fecha hora = some t := by
      simp [nuevaFecha, hh, hm]
    obtain ⟨t, ht⟩ := hv
    constructor
    · rintro ⟨h1, h2⟩
      have hw : (decide (minutos hora < minutos doctor.horarioInicio) ||
          decide (minutos hora ≥ minutos doctor.horarioFin)) = false := by
        simp; omega
      simp only [crearCita, campos_presentes id pacienteId doctorId fecha hora hid hpid hdid,
        hpac, hdoc, hle, hd, hw]
      simp only [ht]
      by_cases hoc : (citas.any (fun c => c.doctorId == doctorId &&
          isoFecha (fechaUTC c.fecha) == isoFecha t && c.hora == hora)) = true
      · right; simp [hoc]
      · left; simp [hoc]
    · intro hn
      have hw : (decide (minutos hora < minutos doctor.horarioInicio) ||
          decide (minutos hora ≥ minutos doctor.horarioFin)) = true := by
        simp; omega
      simp [crearCita, campos_presentes id pacienteId doctorId fecha hora hid hpid hdid,
        hpac, hdoc, hle, hd, hw]
  · intro hfin
    have hw : (decide (minutos hora < minutos doctor.horarioInicio) ||
        decide (minutos hora ≥ minutos doctor.horarioFin)) = true := by
      simp [hfin]
    by_cases hd : incluyeDia doctor.diasDisponibles (diaDe tz (nuevaFecha tz fecha hora)) = true
    · refine ⟨.fueraDeHorario, ?_, rfl⟩
      simp [crearCita, campos_presentes id pacienteId doctorId fecha hora hid hpid hdid,
        hpac, hdoc, hle, hd, hw]
    · refine ⟨.diaNoDisponible (diaDe tz (nuevaFecha tz fecha hora)), ?_, rfl⟩
      simp [crearCita, campos_presentes id pacienteId doctorId fecha hora hid hpid hdid,
        hpac, hdoc, hle, hd]

/-- Witness of C3: doctor `d1` (Mondays 09:00 to 12:00), Monday at 11:30. -/
theorem c3_ventana_semiabierta_witness :
    ("c1" ≠ "" ∧ "p1" ≠ "" ∧ "d1" ≠ "" ∧
      [pAna].find? (fun p => p.id == "p1") = some pAna ∧
      [dGarcia].find? (fun d => d.id == "d1") = some dGarcia ∧
      nuevaFecha 0 lunes ⟨11, 30⟩ = some 1894015800000) ∧
    ((∃ v, crearCita 0 ahoraEjemplo [pAna] [dGarcia] []
        ⟨some "c1", some "p1", some "d1", some lunes, some ⟨11, 30⟩⟩ = .ok v) ∨
      crearCita 0 ahoraEjemplo [pAna] [dGarcia] []
        ⟨some "c1", some "p1", some "d1", some lunes, some ⟨11, 30⟩⟩
        = .rechazo .horarioOcupado) :=
  ⟨by decide,
   ((c3_ventana_semiabierta 0 ahoraEjemplo [pAna] [dGarcia] [] "c1" "p1" "d1" lunes ⟨11, 30⟩ pAna dGarcia
      (by decide) (by decide) (by decide) (by decide) (by decide)
      (by
        intro t ht
        have h : nuevaFecha 0 lunes ⟨11, 30⟩ = some 1894015800000 := by decide
        rw [h] at ht
        cases ht
        decide)).1
      (by decide) ⟨"Lunes", by decide, by decide⟩).1 (by decide)⟩

/-! ## C4: order of the checks of POST /citas -/

/-- The required-field test of the handler fails exactly when check 0 fails. -/
theorem campos_eq_none_iff (nueva : Solicitud) :
    campos nueva = none ↔ faltaCampo nueva = true := by
  rcases nueva with ⟨_ | id, _ | pid, _ | did, _ | f, _ | h⟩ <;>
    simp [faltaCampo, presente, campos]
  tauto

/-- A request that passes check 0 has its five fields, with non-empty identifiers. -/
theorem campos_of_not_faltaCampo (nueva : Solicitud) (h0 : faltaCampo nueva = false) :
    ∃ id pid did f h, nueva = ⟨some id, some pid, some did, some f, some h⟩ ∧
      id ≠ "" ∧ pid ≠ "" ∧ did ≠ "" := by
  rcases nueva with ⟨_ | id, _ | pid, _ | did, _ | f, _ | h⟩ <;>
    simp [faltaCampo, presente] at h0
  exact ⟨id, pid, did, f, h, rfl, h0.1.1, h0.1.2, h0.2⟩

/-- Check 1 fails exactly when `pacientes.find` returns `undefined`. -/
theorem pacienteNoEncontrado_eq (pacientes : List Paciente) (id : Option String)
    (pid : String) (did : Option String) (f : Option Fecha) (h : Option Hora) :
    pacienteNoEncontrado pacientes ⟨id, some pid, did, f, h⟩
      = (pacientes.find? (fun p => p.id == pid)).isNone := by
  unfold pacienteNoEncontrado
  induction pacientes with
  | nil => rfl
  | cons p ps ih =>
    by_cases hp : p.id = pid
    · simp [List.find?_cons, hp]
    · have hb : (p.id == pid) = false := by simpa using hp
      have hs : (some p.id == some pid) = false := by simpa using hp
      simp only [List.any_cons, List.find?_cons, hb, hs, Bool.false_or]
      exact ih

/-- The doctor of a request is the result of `doctores.find`. -/
theorem doctorDe_eq (doctores : List Doctor) (id pid : Option String)
    (did : String) (f : Option Fecha) (h : Option Hora) :
    doctorDe doctores ⟨id, pid, some did, f, h⟩ = doctores.find? (fun d => d.id == did) := by
  unfold doctorDe
  congr 1

/-- Check 5 on a request with a valid date-time is the conflict test of the
handler. -/
theorem horarioTomado_eq (tz : Int) (citas : List Cita) (id pid : Option String)
    (did : String) (f : Fecha) (h : Hora) (t : Int) (ht : nuevaFecha tz f h = some t) :
    horarioTomado tz citas ⟨id, pid, some did, some f, some h⟩
      = citas.any (fun c => c.doctorId == did &&
          isoFecha (fechaUTC c.fecha) == isoFecha t && c.hora == h) := by
  unfold horarioTomado instanteDe
  simp only [ht]
  congr 1

/-- The handler of `POST /citas` on a request with its five fields, as a cascade
of the checks 1 to 5. -/
theorem crearCita_cascada (tz ahora : Int) (pacientes : List Paciente)
    (doctores : List Doctor) (citas : List Cita) (id pid did : String) (f : Fecha) (h : Hora)
    (hid : id ≠ "") (hpid : pid ≠ "") (hdid : did ≠ "") :
    crearCita tz ahora pacientes doctores citas ⟨some id, some pid, some did, some f, some h⟩ =
      if pacienteNoEncontrado pacientes ⟨some id, some pid, some did, some f, some h⟩ then
        .rechazo .pacienteNoExiste
      else if doctorNoEncontrado doctores ⟨some id, some pid, some did, some f, some h⟩ then
        .rechazo .doctorNoExiste
      else if noEsFutura tz ahora ⟨some id, some pid, some did, some f, some h⟩ then
        .rechazo .fechaPasada
      else if diaNoAtendido tz doctores ⟨some id, some pid, some did, some f, some h⟩ then
        .rechazo (.diaNoDisponible
          (diaDe tz (instanteDe tz ⟨some id, some pid, some did, some f, some h⟩)))
      else if horaFueraDeVentana doctores ⟨some id, some pid, some did, some f, some h⟩ then
        .rechazo .fueraDeHorario
      else if horarioTomado tz citas ⟨some id, some pid, some did, some f, some h⟩ then
        .rechazo .horarioOcupado
      else
        .ok (⟨id, pid, did, f, h, "programada"⟩, citas ++ [⟨id, pid, did, f, h, "programada"⟩]) := by
  rw [pacienteNoEncontrado_eq]
  simp only [crearCita, campos_presentes id pid did f h hid hpid hdid,
    doctorNoEncontrado, noEsFutura, diaNoAtendido, horaFueraDeVentana, doctorDe_eq]
  cases pacientes.find? (fun p => p.id == pid) with
  | none => simp
  | some p =>
    cases doctores.find? (fun d => d.id == did) with
    | none => simp
    | some d =>
      cases ht : nuevaFecha tz f h with
      | none =>
        simp [instanteDe, ht, instanteLe, diaDe, incluyeDia]
      | some t =>
        rw [horarioTomado_eq tz citas (some id) (some pid) did f h t ht]
        simp only [instanteDe, ht]
        by_cases h3 : instanteLe (some t) ahora = true
        · simp [h3]
        · by_cases h4 : incluyeDia d.diasDisponibles (diaDe tz (some t)) = true
          · by_cases h5 : minutos h < minutos d.horarioInicio
            · simp [h3, h4, h5]
            · by_cases h6 : minutos d.horarioFin ≤ minutos h
              · simp [h3, h4, h5, h6]
              · simp [h3, h4, h5, h6]
          · simp [h3, h4]

/-- The handler rejects with the rejection of the earliest failing check and
accepts when no check fails. -/
theorem crearCita_segun_primerRechazo (tz ahora : Int) (pacientes : List Paciente)
    (doctores : List Doctor) (citas : List Cita) (nueva : Solicitud) :
    (∀ r, primerRechazo tz ahora pacientes doctores citas nueva = some r →
      crearCita tz ahora pacientes doctores citas nueva = .rechazo r) ∧
    (primerRechazo tz ahora pacientes doctores citas nueva = none →
      ∃ v, crearCita tz ahora pacientes doctores citas nueva = .ok v) := by
  by_cases h0 : faltaCampo nueva = true
  · have hc := (campos_eq_none_iff nueva).2 h0
    simp [primerRechazo, chequeos, h0, crearCita, hc]
  · rw [Bool.not_eq_true] at h0
    obtain ⟨id, pid, did, f, h, rfl, hid, hpid, hdid⟩ := campos_of_not_faltaCampo nueva h0
    rw [crearCita_cascada tz ahora pacientes doctores citas id pid did f h hid hpid hdid]
    simp only [primerRechazo, chequeos, h0]
    split_ifs <;> simp [*]

/-- C4: `POST /citas` reports the first failing check in the order missing
field, patient not found, doctor not found, date-time not in the future,
weekday not attended, time outside the window, slot taken: its rejection is `r`
exactly when `r` is the rejection of the earliest failing check of `chequeos`,
whatever the later checks say, and it accepts exactly when no check fails. -/
theorem c4_primer_chequeo_fallido (tz ahora : Int) (pacientes : List Paciente)
    (doctores : List Doctor) (citas : List Cita) (nueva : Solicitud) :
    (∀ r, crearCita tz ahora pacientes doctores citas nueva = .rechazo r ↔
      primerRechazo tz ahora pacientes doctores citas nueva = some r) ∧
    ((∃ v, crearCita tz ahora pacientes doctores citas nueva = .ok v) ↔
      ∀ q ∈ chequeos tz ahora pacientes doctores citas nueva, q.1 = false) ∧
    (∀ r, primerRechazo tz ahora pacientes doctores citas nueva = some r ↔
      ∃ antes q despues,
        chequeos tz ahora pacientes doctores citas nueva = antes ++ q :: despues ∧
        (∀ a ∈ antes, a.1 = false) ∧ q.1 = true ∧ q.2 = r) := by
  obtain ⟨hA, hB⟩ := crearCita_segun_primerRechazo tz ahora pacientes doctores citas nueva
  have hnone : primerRechazo tz ahora pacientes doctores citas nueva = none ↔
      ∀ q ∈ chequeos tz ahora pacientes doctores citas nueva, q.1 = false := by
    simp only [primerRechazo, Option.map_eq_none', List.find?_eq_none]
    constructor
    · intro h q hq
      simpa using h q hq
    · intro h q hq
      simpa using h q hq
  refine ⟨?_, ?_, ?_⟩
  · intro r
    constructor
    · intro hr
      cases hp : primerRechazo tz ahora pacientes doctores citas nueva with
      | none =>
        obtain ⟨v, hv⟩ := hB hp
        rw [hv] at hr
        cases hr
      | some r' =>
        have := hA r' hp
        rw [this] at hr
        cases hr
        rfl
    · exact hA r
  · rw [← hnone]
    constructor
    · rintro ⟨v, hv⟩
      cases hp : primerRechazo tz ahora pacientes doctores citas nueva with
      | none => rfl
      | some r' =>
        rw [hA r' hp] at hv
        cases hv
    · exact hB
  · intro r
    simp only [primerRechazo, Option.map_eq_some', List.find?_eq_some]
    constructor
    · rintro ⟨q, ⟨hq, antes, despues, heq, hantes⟩, hr⟩
      exact ⟨antes, q, despues, heq, fun a ha => by simpa using hantes a ha, hq, hr⟩
    · rintro ⟨antes, q, despues, heq, hantes, hq, hr⟩
      exact ⟨q, ⟨hq, antes, despues, heq, fun a ha => by simpa using hantes a ha⟩, hr⟩

/-! ## C5: cancellation -/

/-- The handler of `PUT /citas/:id/cancelar` on an empty collection. -/
theorem cancelarCita_nil (id : String) :
    cancelarCita [] id = .rechazo .citaNoEncontrada := rfl

/-- The handler of `PUT /citas/:id/cancelar`, by the first record of the
collection: `findIndex` stops at the first record with the identifier. -/
theorem cancelarCita_cons (x : Cita) (xs : List Cita) (id : String) :
    cancelarCita (x :: xs) id =
      if x.id = id then
        if x.estado = "programada" then
          .ok ({ x with estado := "cancelada" }, { x with estado := "cancelada" } :: xs)
        else .rechazo .noProgramada
      else
        match cancelarCita xs id with
        | .ok (c, guardadas) => .ok (c, x :: guardadas)
        | .rechazo r => .rechazo r := by
  unfold cancelarCita
  by_cases hx : x.id = id
  · by_cases he : x.estado = "programada"
    · simp [hx, he]
    · simp [hx, he]
  · have hb : (x.id == id) = false := by simpa using hx
    simp only [List.findIdx?_cons, hb, Bool.false_eq_true, if_false, hx, zero_add,
      List.findIdx?_succ]
    cases hi : List.findIdx? (fun c => c.id == id) xs 0 with
    | none => simp
    | some idx =>
      simp only [Option.map_some', List.getElem?_cons_succ, List.set_cons_succ]
      cases hc : xs[idx]? with
      | none => simp
      | some c =>
        by_cases he : c.estado = "programada"
        · simp [he]
        · simp [he]

/-- An accepted `POST /citas` appends one record with `estado` "programada". -/
theorem crearCita_ok (tz ahora : Int) (pacientes : List Paciente) (doctores : List Doctor)
    (citas : List Cita) (nueva : Solicitud) (c : Cita) (guardadas : List Cita)
    (h : crearCita tz ahora pacientes doctores citas nueva = .ok (c, guardadas)) :
    guardadas = citas ++ [c] ∧ c.estado = "programada" := by
  by_cases h0 : faltaCampo nueva = true
  · have hc := (campos_eq_none_iff nueva).2 h0
    simp [crearCita, hc] at h
  · rw [Bool.not_eq_true] at h0
    obtain ⟨id, pid, did, f, hr, rfl, hid, hpid, hdid⟩ := campos_of_not_faltaCampo nueva h0
    rw [crearCita_cascada tz ahora pacientes doctores citas id pid did f hr hid hpid hdid] at h
    split_ifs at h
    cases h
    exact ⟨rfl, rfl⟩

/-- The cancellation is rejected with "Solo se pueden cancelar citas
programadas" exactly when the record found for the identifier is not scheduled. -/
theorem cancelarCita_noProgramada_iff (citas : List Cita) (id : String) :
    cancelarCita citas id = .rechazo .noProgramada ↔
      ∃ c, citas.find? (fun c => c.id == id) = some c ∧ c.estado ≠ "programada" := by
  induction citas with
  | nil => simp [cancelarCita_nil]
  | cons x xs ih =>
    rw [cancelarCita_cons]
    by_cases hx : x.id = id
    · by_cases he : x.estado = "programada"
      · simp [hx, he]
      · simp [hx, he]
    · have hb : (x.id == id) = false := by simpa using hx
      simp only [hx, if_false, List.find?_cons, hb]
      rw [← ih]
      cases hc : cancelarCita xs id with
      | ok v => simp
      | rechazo r => simp

/-- The cancellation succeeds exactly when the record at the first index with
the identifier is scheduled; it then returns that record with `estado`
"cancelada" and the collection with that record replaced. -/
theorem cancelarCita_ok_iff (citas : List Cita) (id : String) (v : Cita × List Cita) :
    cancelarCita citas id = .ok v ↔
      ∃ idx c, citas.findIdx? (fun c => c.id == id) = some idx ∧ citas[idx]? = some c ∧
        c.estado = "programada" ∧
        v = ({ c with estado := "cancelada" }, citas.set idx { c with estado := "cancelada" }) := by
  unfold cancelarCita
  cases hi : citas.findIdx? (fun c => c.id == id) with
  | none => simp
  | some idx =>
    simp only [Option.some.injEq]
    cases hc : citas[idx]? with
    | none =>
      simp only [false_iff, reduceCtorEq]
      rintro ⟨idx', c', rfl, hc', _⟩
      rw [hc] at hc'
      cases hc'
    | some c =>
      by_cases he : c.estado = "programada"
      · simp only [he, bne_self_eq_false, Bool.false_eq_true, if_false, Resultado.ok.injEq]
        constructor
        · intro hv
          exact ⟨idx, c, rfl, hc, he, hv.symm⟩
        · rintro ⟨idx', c', rfl, hc', _, hv⟩
          rw [hc] at hc'
          cases hc'
          exact hv.symm
      · have hne : (c.estado != "programada") = true := by simpa using he
        simp only [hne, if_true]
        constructor
        · intro h; cases h
        · rintro ⟨idx', c', rfl, hc', he', _⟩
          rw [hc] at hc'
          cases hc'
          exact absurd he' he

/-- The record found for an identifier is the one at the first index with it. -/
theorem find?_of_findIdx? (citas : List Cita) (id : String) (idx : Nat) (c : Cita)
    (hi : citas.findIdx? (fun c => c.id == id) = some idx) (hc : citas[idx]? = some c) :
    citas.find? (fun c => c.id == id) = some c := by
  induction citas generalizing idx with
  | nil => simp at hi
  | cons x xs ih =>
    by_cases hx : x.id = id
    · have hb : (x.id == id) = true := by simpa using hx
      simp only [List.findIdx?_cons, hb, if_true, Option.some.injEq] at hi
      subst hi
      simp only [List.getElem?_cons_zero, Option.some.injEq] at hc
      subst hc
      simp [List.find?_cons, hb]
    · have hb : (x.id == id) = false := by simpa using hx
      simp only [List.findIdx?_cons, hb, Bool.false_eq_true, if_false, zero_add,
        List.findIdx?_succ, Option.map_eq_some'] at hi
      obtain ⟨k, hk, rfl⟩ := hi
      simp only [List.getElem?_cons_succ] at hc
      simp only [List.find?_cons, hb]
      exact ih k hk hc

/-- One request never changes a stored record that is not scheduled. -/
theorem ejecutar_conserva_no_programada (tz : Int) (pacientes : List Paciente)
    (doctores : List Doctor) (citas : List Cita) (op : Operacion) (i : Nat) (c : Cita)
    (hc : citas[i]? = some c) (he : c.estado ≠ "programada") :
    (ejecutar tz pacientes doctores citas op)[i]? = some c := by
  cases op with
  | crear ahora nueva =>
    simp only [ejecutar]
    cases hr : crearCita tz ahora pacientes doctores citas nueva with
    | rechazo r => exact hc
    | ok v =>
      obtain ⟨creada, guardadas⟩ := v
      obtain ⟨hg, _⟩ := crearCita_ok tz ahora pacientes doctores citas nueva creada guardadas hr
      simp only [hg]
      obtain ⟨hlt, _⟩ := List.getElem?_eq_some_iff.1 hc
      rw [List.getElem?_append_left hlt]
      exact hc
  | cancelar id =>
    simp only [ejecutar]
    cases hr : cancelarCita citas id with
    | rechazo r => exact hc
    | ok v =>
      obtain ⟨idx, c0, _, hc0, he0, hv⟩ := (cancelarCita_ok_iff citas id v).1 hr
      subst hv
      simp only []
      have hne : idx ≠ i := by
        rintro rfl
        rw [hc0] at hc
        cases hc
        exact he he0
      rw [List.getElem?_set_ne hne]
      exact hc

/-- No sequence of requests changes a stored record that is not scheduled. -/
theorem ejecutarTodas_conserva_no_programada (tz : Int) (pacientes : List Paciente)
    (doctores : List Doctor) (ops : List Operacion) (citas : List Cita) (i : Nat) (c : Cita)
    (hc : citas[i]? = some c) (he : c.estado ≠ "programada") :
    (ejecutarTodas tz pacientes doctores citas ops)[i]? = some c := by
  induction ops generalizing citas with
  | nil => exact hc
  | cons op ops ih =>
    simp only [ejecutarTodas, List.foldl_cons]
    exact ih _ (ejecutar_conserva_no_programada tz pacientes doctores citas op i c hc he)

/-- A successful cancellation keeps the record found for any identifier
unscheduled when it was unscheduled before. -/
theorem cancelarCita_conserva_encontrada (citas : List Cita) (id otro : String)
    (c : Cita) (guardadas : List Cita)
    (hq : ∃ c0, citas.find? (fun x => x.id == id) = some c0 ∧ c0.estado ≠ "programada")
    (h : cancelarCita citas otro = .ok (c, guardadas)) :
    ∃ c0, guardadas.find? (fun x => x.id == id) = some c0 ∧ c0.estado ≠ "programada" := by
  induction citas generalizing guardadas c with
  | nil => simp [cancelarCita_nil] at h
  | cons x xs ih =>
    rw [cancelarCita_cons] at h
    by_cases hx : x.id = otro
    · subst hx
      by_cases he : x.estado = "programada"
      · simp only [he, if_true, Resultado.ok.injEq, Prod.mk.injEq] at h
        obtain ⟨_, rfl⟩ := h
        by_cases hid : x.id = id
        · have hb : (x.id == id) = true := by simpa using hid
          refine ⟨{ x with estado := "cancelada" }, ?_, by simp⟩
          simp only [List.find?_cons, hb]
        · have hb : (x.id == id) = false := by simpa using hid
          simp only [List.find?_cons, hb] at hq ⊢
          exact hq
      · simp [he] at h
    · simp only [hx, if_false] at h
      cases hr : cancelarCita xs otro with
      | rechazo r => simp [hr] at h
      | ok v =>
        obtain ⟨c', g'⟩ := v
        simp only [hr, Resultado.ok.injEq, Prod.mk.injEq] at h
        obtain ⟨_, rfl⟩ := h
        by_cases hid : x.id = id
        · have hb : (x.id == id) = true := by simpa using hid
          simp only [List.find?_cons, hb] at hq ⊢
          exact hq
        · have hb : (x.id == id) = false := by simpa using hid
          simp only [List.find?_cons, hb] at hq ⊢
          exact ih c' g' hq hr

/-- One request keeps the record found for an identifier unscheduled. -/
theorem ejecutar_conserva_encontrada (tz : Int) (pacientes : List Paciente)
    (doctores : List Doctor) (citas : List Cita) (op : Operacion) (id : String)
    (hq : ∃ c0, citas.find? (fun x => x.id == id) = some c0 ∧ c0.estado ≠ "programada") :
    ∃ c0, (ejecutar tz pacientes doctores citas op).find? (fun x => x.id == id) = some c0 ∧
      c0.estado ≠ "programada" := by
  cases op with
  | crear ahora nueva =>
    simp only [ejecutar]
    cases hr : crearCita tz ahora pacientes doctores citas nueva with
    | rechazo r => exact hq
    | ok v =>
      obtain ⟨creada, guardadas⟩ := v
      obtain ⟨hg, _⟩ := crearCita_ok tz ahora pacientes doctores citas nueva creada guardadas hr
      obtain ⟨c0, hf, he⟩ := hq
      exact ⟨c0, by simp [hg, List.find?_append, hf], he⟩
  | cancelar otro =>
    simp only [ejecutar]
    cases hr : cancelarCita citas otro with
    | rechazo r => exact hq
    | ok v =>
      obtain ⟨c', g'⟩ := v
      exact cancelarCita_conserva_encontrada citas id otro c' g' hq hr

/-- Once the record found for an identifier is not scheduled, cancelling that
identifier is rejected after every sequence of requests. -/
theorem cancelarCita_rechazada_siempre (tz : Int) (pacientes : List Paciente)
    (doctores : List Doctor) (ops : List Operacion) (citas : List Cita) (id : String)
    (hq : ∃ c0, citas.find? (fun x => x.id == id) = some c0 ∧ c0.estado ≠ "programada") :
    cancelarCita (ejecutarTodas tz pacientes doctores citas ops) id = .rechazo .noProgramada := by
  induction ops generalizing citas with
  | nil => exact (cancelarCita_noProgramada_iff citas id).2 hq
  | cons op ops ih =>
    simp only [ejecutarTodas, List.foldl_cons]
    exact ih _ (ejecutar_conserva_encontrada tz pacientes doctores citas op id hq)

/-- After a successful cancellation every stored record is a record stored
before or carries the cancelled identifier. -/
theorem cancelarCita_ok_mem (citas : List Cita) (id : String) (c : Cita)
    (guardadas : List Cita) (h : cancelarCita citas id = .ok (c, guardadas)) :
    ∀ y ∈ guardadas, y ∈ citas ∨ y.id = id := by
  induction citas generalizing guardadas c with
  | nil => simp [cancelarCita_nil] at h
  | cons x xs ih =>
    rw [cancelarCita_cons] at h
    by_cases hx : x.id = id
    · by_cases he : x.estado = "programada"
      · simp only [hx, he, if_true, Resultado.ok.injEq, Prod.mk.injEq] at h
        obtain ⟨_, rfl⟩ := h
        intro y hy
        rcases List.mem_cons.1 hy with rfl | hy
        · right; rfl
        · left; exact List.mem_cons_of_mem _ hy
      · simp [hx, he] at h
    · simp only [hx, if_false] at h
      cases hr : cancelarCita xs id with
      | rechazo r => simp [hr] at h
      | ok v =>
        obtain ⟨c', g'⟩ := v
        simp only [hr, Resultado.ok.injEq, Prod.mk.injEq] at h
        obtain ⟨_, rfl⟩ := h
        intro y hy
        rcases List.mem_cons.1 hy with rfl | hy
        · left; exact List.mem_cons_self _ _
        · rcases ih c' g' hr y hy with hm | hid
          · left; exact List.mem_cons_of_mem _ hm
          · right; exact hid

/-- A successful cancellation keeps repeated identifiers scheduled. -/
theorem cancelarCita_conserva_repetidas (citas : List Cita) (id : String) (c : Cita)
    (guardadas : List Cita) (hj : RepetidasProgramadas citas)
    (h : cancelarCita citas id = .ok (c, guardadas)) :
    RepetidasProgramadas guardadas := by
  unfold RepetidasProgramadas at hj ⊢
  induction citas generalizing guardadas c with
  | nil => simp [cancelarCita_nil] at h
  | cons x xs ih =>
    rw [cancelarCita_cons] at h
    rw [List.pairwise_cons] at hj
    by_cases hx : x.id = id
    · by_cases he : x.estado = "programada"
      · simp only [hx, he, if_true, Resultado.ok.injEq, Prod.mk.injEq] at h
        obtain ⟨_, rfl⟩ := h
        rw [List.pairwise_cons]
        exact ⟨fun y hy hid => hj.1 y hy (hx.trans hid), hj.2⟩
      · simp [hx, he] at h
    · simp only [hx, if_false] at h
      cases hr : cancelarCita xs id with
      | rechazo r => simp [hr] at h
      | ok v =>
        obtain ⟨c', g'⟩ := v
        simp only [hr, Resultado.ok.injEq, Prod.mk.injEq] at h
        obtain ⟨_, rfl⟩ := h
        rw [List.pairwise_cons]
        refine ⟨?_, ih c' g' hj.2 hr⟩
        intro y hy hid
        rcases cancelarCita_ok_mem xs id c' g' hr y hy with hm | hyid
        · exact hj.1 y hm hid
        · exact absurd (hid.trans hyid) hx

/-- One request keeps repeated identifiers scheduled. -/
theorem ejecutar_conserva_repetidas (tz : Int) (pacientes : List Paciente)
    (doctores : List Doctor) (citas : List Cita) (op : Operacion)
    (hj : RepetidasProgramadas citas) :
    RepetidasProgramadas (ejecutar tz pacientes doctores citas op) := by
  cases op with
  | crear ahora nueva =>
    simp only [ejecutar]
    cases hr : crearCita tz ahora pacientes doctores citas nueva with
    | rechazo r => exact hj
    | ok v =>
      obtain ⟨creada, guardadas⟩ := v
      obtain ⟨hg, he⟩ := crearCita_ok tz ahora pacientes doctores citas nueva creada guardadas hr
      simp only [hg]
      unfold RepetidasProgramadas at hj ⊢
      rw [List.pairwise_append]
      refine ⟨hj, List.pairwise_singleton _ _, ?_⟩
      intro a _ b hb _
      rw [List.mem_singleton.1 hb]
      exact he
  | cancelar id =>
    simp only [ejecutar]
    cases hr : cancelarCita citas id with
    | rechazo r => exact hj
    | ok v =>
      obtain ⟨c', g'⟩ := v
      exact cancelarCita_conserva_repetidas citas id c' g' hj hr

/-- Every sequence of requests keeps repeated identifiers scheduled. -/
theorem ejecutarTodas_conserva_repetidas (tz : Int) (pacientes : List Paciente)
    (doctores : List Doctor) (ops : List Operacion) (citas : List Cita)
    (hj : RepetidasProgramadas citas) :
    RepetidasProgramadas (ejecutarTodas tz pacientes doctores citas ops) := by
  induction ops generalizing citas with
  | nil => exact hj
  | cons op ops ih =>
    simp only [ejecutarTodas, List.foldl_cons]
    exact ih _ (ejecutar_conserva_repetidas tz pacientes doctores citas op hj)

/-- When repeated identifiers are scheduled, a stored record that is not
scheduled is the record found for its identifier. -/
theorem find?_of_no_programada (citas : List Cita) (c : Cita)
    (hj : RepetidasProgramadas citas) (hc : c ∈ citas) (he : c.estado ≠ "programada") :
    citas.find? (fun x => x.id == c.id) = some c := by
  unfold RepetidasProgramadas at hj
  induction citas with
  | nil => cases hc
  | cons x xs ih =>
    rw [List.pairwise_cons] at hj
    rcases List.mem_cons.1 hc with rfl | hm
    · simp [List.find?_cons]
    · by_cases hx : x.id = c.id
      · exact absurd (hj.1 c hm hx) he
      · have hb : (x.id == c.id) = false := by simpa using hx
        simp only [List.find?_cons, hb]
        exact ih hj.2 hm

/-- C5: (1) `PUT /citas/:id/cancelar` succeeds exactly when the record found for
the identifier (the first one with it) has `estado` "programada", and it then
stores that record with `estado` "cancelada"; (2) once the record found for an
identifier is not scheduled, cancelling that identifier is rejected with "Solo
se pueden cancelar citas programadas" after every sequence of requests; (3) no
sequence of requests changes a stored record that is not scheduled, so no
`estado` goes from "cancelada" back to "programada"; (4) in every collection
built from the empty one, cancelling the identifier of any record with `estado`
"cancelada" is rejected in the same way. -/
theorem c5_cancelacion_definitiva (tz : Int) (pacientes : List Paciente)
    (doctores : List Doctor) :
    (∀ (citas : List Cita) (id : String) (v : Cita × List Cita),
      cancelarCita citas id = .ok v ↔
        ∃ idx c, citas.findIdx? (fun x => x.id == id) = some idx ∧ citas[idx]? = some c ∧
          citas.find? (fun x => x.id == id) = some c ∧ c.estado = "programada" ∧
          v = ({ c with estado := "cancelada" },
                citas.set idx { c with estado := "cancelada" })) ∧
    (∀ (citas : List Cita) (id : String) (c : Cita) (ops : List Operacion),
      citas.find? (fun x => x.id == id) = some c → c.estado = "cancelada" →
        cancelarCita (ejecutarTodas tz pacientes doctores citas ops) id
          = .rechazo .noProgramada) ∧
    (∀ (citas : List Cita) (ops : List Operacion) (i : Nat) (c : Cita),
      citas[i]? = some c → c.estado = "cancelada" →
        (ejecutarTodas tz pacientes doctores citas ops)[i]? = some c) ∧
    (∀ (ops : List Operacion) (c : Cita),
      c ∈ ejecutarTodas tz pacientes doctores [] ops → c.estado = "cancelada" →
        cancelarCita (ejecutarTodas tz pacientes doctores [] ops) c.id
          = .rechazo .noProgramada) := by
  have hcp : ∀ c : Cita, c.estado = "cancelada" → c.estado ≠ "programada" := by
    intro c h
    rw [h]
    decide
  refine ⟨?_, ?_, ?_, ?_⟩
  · intro citas id v
    rw [cancelarCita_ok_iff]
    constructor
    · rintro ⟨idx, c, hi, hc, he, hv⟩
      exact ⟨idx, c, hi, hc, find?_of_findIdx? citas id idx c hi hc, he, hv⟩
    · rintro ⟨idx, c, hi, hc, _, he, hv⟩
      exact ⟨idx, c, hi, hc, he, hv⟩
  · intro citas id c ops hf he
    exact cancelarCita_rechazada_siempre tz pacientes doctores ops citas id ⟨c, hf, hcp c he⟩
  · intro citas ops i c hc he
    exact ejecutarTodas_conserva_no_programada tz pacientes doctores ops citas i c hc (hcp c he)
  · intro ops c hc he
    have hj : RepetidasProgramadas (ejecutarTodas tz pacientes doctores [] ops) :=
      ejecutarTodas_conserva_repetidas tz pacientes doctores ops [] List.Pairwise.nil
    exact (cancelarCita_noProgramada_iff _ c.id).2
      ⟨c, find?_of_no_programada _ c hj hc (hcp c he), hcp c he⟩

/-! ### The double-booking invariant on a host in UTC

The evaluation of C2 shows two bookings of one slot on a host behind UTC.  On a
host whose zone is UTC, and with windows that end by 24:00, the conflict test
does keep scheduled appointments apart. -/

/-- An accepted `POST /citas` on a host in UTC, with windows that end by 24:00,
finds no stored appointment of the doctor at the date and time of the request. -/
theorem crearCita_ok_utc (ahora : Int) (pacientes : List Paciente) (doctores : List Doctor)
    (citas : List Cita) (nueva : Solicitud) (c : Cita) (guardadas : List Cita)
    (hfin : ∀ d ∈ doctores, minutos d.horarioFin ≤ 1440)
    (h : crearCita 0 ahora pacientes doctores citas nueva = .ok (c, guardadas)) :
    ∀ x ∈ citas, ¬ (x.doctorId = c.doctorId ∧ x.fecha = c.fecha ∧ x.hora = c.hora) := by
  by_cases h0 : faltaCampo nueva = true
  · have hc := (campos_eq_none_iff nueva).2 h0
    simp [crearCita, hc] at h
  · rw [Bool.not_eq_true] at h0
    obtain ⟨id, pid, did, f, hr, rfl, hid, hpid, hdid⟩ := campos_of_not_faltaCampo nueva h0
    rw [crearCita_cascada 0 ahora pacientes doctores citas id pid did f hr hid hpid hdid] at h
    split_ifs at h with h1 h2 h3 h4 h5 h6
    cases h
    simp only [horaFueraDeVentana, diaNoAtendido, doctorDe_eq, instanteDe] at h4 h5
    cases hd : doctores.find? (fun d => d.id == did) with
    | none => simp [hd] at h5
    | some d =>
      have hdm : d ∈ doctores := List.mem_of_find?_eq_some hd
      have hle := hfin d hdm
      simp only [hd, Bool.or_eq_true, decide_eq_true_eq, not_or, not_lt, not_le] at h5
      have hlt : minutos hr < 1440 := by omega
      cases ht : nuevaFecha 0 f hr with
      | none => simp [hd, ht, diaDe, incluyeDia] at h4
      | some t =>
        have hval : (hr.h < 24 ∧ hr.m < 60) ∨ (hr.h = 24 ∧ hr.m = 0) := by
          by_contra hcon
          simp [nuevaFecha, hcon] at ht
        have hhm : hr.h < 24 ∧ hr.m < 60 := by
          rcases hval with hv | hv
          · exact hv
          · exfalso
            unfold minutos at hlt
            omega
        have htv : t = (f * 1440 + (hr.h : Int) * 60 + (hr.m : Int) - 0) * 60000 := by
          have hv2 : (hr.h < 24 ∧ hr.m < 60) ∨ (hr.h = 24 ∧ hr.m = 0) := Or.inl hhm
          simp only [nuevaFecha, hv2, if_true, Option.some.injEq, msMinuto] at ht
          exact ht.symm
        have hiso : ∀ g : Int, isoFecha t = g ↔ f = g := by
          intro g
          unfold isoFecha msDia
          have key : ∀ f0 : Int, t = (f0 * 1440 + (hr.h : Int) * 60 + (hr.m : Int) - 0) * 60000 →
              t / 86400000 = f0 := by
            intro f0 hf0
            have := hhm.1
            have := hhm.2
            omega
          rw [key f htv]
        have hutc : ∀ g : Int, isoFecha (fechaUTC g) = g := by
          intro g
          show (g * 86400000 / 86400000 : Int) = g
          omega
        rw [horarioTomado_eq 0 citas (some id) (some pid) did f hr t ht] at h6
        intro x hx hxx
        apply h6
        rw [List.any_eq_true]
        refine ⟨x, hx, ?_⟩
        simp only [Bool.and_eq_true, beq_iff_eq, hutc]
        exact ⟨⟨hxx.1, ((hiso x.fecha).2 hxx.2.1.symm).symm⟩, hxx.2.2⟩

/-- After a successful cancellation every stored record is a record stored
before or has `estado` "cancelada". -/
theorem cancelarCita_ok_estado (citas : List Cita) (id : String) (c : Cita)
    (guardadas : List Cita) (h : cancelarCita citas id = .ok (c, guardadas)) :
    ∀ y ∈ guardadas, y ∈ citas ∨ y.estado = "cancelada" := by
  induction citas generalizing guardadas c with
  | nil => simp [cancelarCita_nil] at h
  | cons x xs ih =>
    rw [cancelarCita_cons] at h
    by_cases hx : x.id = id
    · by_cases he : x.estado = "programada"
      · simp only [hx, he, if_true, Resultado.ok.injEq, Prod.mk.injEq] at h
        obtain ⟨_, rfl⟩ := h
        intro y hy
        rcases List.mem_cons.1 hy with rfl | hy
        · right; rfl
        · left; exact List.mem_cons_of_mem _ hy
      · simp [hx, he] at h
    · simp only [hx, if_false] at h
      cases hr : cancelarCita xs id with
      | rechazo r => simp [hr] at h
      | ok v =>
        obtain ⟨c', g'⟩ := v
        simp only [hr, Resultado.ok.injEq, Prod.mk.injEq] at h
        obtain ⟨_, rfl⟩ := h
        intro y hy
        rcases List.mem_cons.1 hy with rfl | hy
        · left; exact List.mem_cons_self _ _
        · rcases ih c' g' hr y hy with hm | hes
          · left; exact List.mem_cons_of_mem _ hm
          · right; exact hes

/-- A successful cancellation keeps scheduled appointments in distinct slots. -/
theorem cancelarCita_conserva_sinDobleReserva (citas : List Cita) (id : String) (c : Cita)
    (guardadas : List Cita) (hj : SinDobleReserva citas)
    (h : cancelarCita citas id = .ok (c, guardadas)) : SinDobleReserva guardadas := by
  unfold SinDobleReserva at hj ⊢
  induction citas generalizing guardadas c with
  | nil => simp [cancelarCita_nil] at h
  | cons x xs ih =>
    rw [cancelarCita_cons] at h
    rw [List.pairwise_cons] at hj
    by_cases hx : x.id = id
    · by_cases he : x.estado = "programada"
      · simp only [hx, he, if_true, Resultado.ok.injEq, Prod.mk.injEq] at h
        obtain ⟨_, rfl⟩ := h
        rw [List.pairwise_cons]
        refine ⟨?_, hj.2⟩
        intro y _ hcon
        exact absurd hcon.1 (by simp)
      · simp [hx, he] at h
    · simp only [hx, if_false] at h
      cases hr : cancelarCita xs id with
      | rechazo r => simp [hr] at h
      | ok v =>
        obtain ⟨c', g'⟩ := v
        simp only [hr, Resultado.ok.injEq, Prod.mk.injEq] at h
        obtain ⟨_, rfl⟩ := h
        rw [List.pairwise_cons]
        refine ⟨?_, ih c' g' hj.2 hr⟩
        intro y hy hcon
        rcases cancelarCita_ok_estado xs id c' g' hr y hy with hm | hes
        · exact hj.1 y hm hcon
        · have h2 := hcon.2.1
          rw [hes] at h2
          revert h2
          decide

/-- On a host in UTC, with windows that end by 24:00, no sequence of serialized
requests from the empty collection stores two scheduled appointments with the
same doctor, date and time. -/
theorem sin_doble_reserva_en_utc (pacientes : List Paciente) (doctores : List Doctor)
    (hfin : ∀ d ∈ doctores, minutos d.horarioFin ≤ 1440) (ops : List Operacion) :
    SinDobleReserva (ejecutarTodas 0 pacientes doctores [] ops) := by
  have hstep : ∀ (citas : List Cita) (op : Operacion), SinDobleReserva citas →
      SinDobleReserva (ejecutar 0 pacientes doctores citas op) := by
    intro citas op hj
    cases op with
    | crear ahora nueva =>
      simp only [ejecutar]
      cases hr : crearCita 0 ahora pacientes doctores citas nueva with
      | rechazo r => exact hj
      | ok v =>
        obtain ⟨creada, guardadas⟩ := v
        obtain ⟨hg, _⟩ := crearCita_ok 0 ahora pacientes doctores citas nueva creada guardadas hr
        have hlibre := crearCita_ok_utc ahora pacientes doctores citas nueva creada guardadas
          hfin hr
        simp only [hg]
        unfold SinDobleReserva at hj ⊢
        rw [List.pairwise_append]
        refine ⟨hj, List.pairwise_singleton _ _, ?_⟩
        intro a ha b hb hcon
        rw [List.mem_singleton.1 hb] at hcon
        exact hlibre a ha ⟨hcon.2.2.1, hcon.2.2.2.1, hcon.2.2.2.2⟩
    | cancelar id =>
      simp only [ejecutar]
      cases hr : cancelarCita citas id with
      | rechazo r => exact hj
      | ok v =>
        obtain ⟨c', g'⟩ := v
        exact cancelarCita_conserva_sinDobleReserva citas id c' g' hj hr
  have hall : ∀ (ops : List Operacion) (citas : List Cita), SinDobleReserva citas →
      SinDobleReserva (ejecutarTodas 0 pacientes doctores citas ops) := by
    intro ops
    induction ops with
    | nil => intro citas hj; exact hj
    | cons op ops ih =>
      intro citas hj
      simp only [ejecutarTodas, List.foldl_cons]
      exact ih _ (hstep citas op hj)
  exact hall ops [] List.Pairwise.nil

/-- Witness of C5: a cancelled appointment stays rejected after a later booking. -/
theorem c5_cancelacion_definitiva_witness :
    cancelarCita
        (ejecutarTodas 0 [pAna] [dGarcia] [⟨"c1", "p1", "d1", lunes, ⟨11, 30⟩, "cancelada"⟩]
          [.crear ahoraEjemplo ⟨some "c2", some "p1", some "d1", some lunes, some ⟨10, 0⟩⟩,
           .cancelar "c1"]) "c1"
      = .rechazo .noProgramada :=
  (c5_cancelacion_definitiva 0 [pAna] [dGarcia]).2.1
    [⟨"c1", "p1", "d1", lunes, ⟨11, 30⟩, "cancelada"⟩] "c1"
    ⟨"c1", "p1", "d1", lunes, ⟨11, 30⟩, "cancelada"⟩
    [.crear ahoraEjemplo ⟨some "c2", some "p1", some "d1", some lunes, some ⟨10, 0⟩⟩, .cancelar "c1"]
    (by decide) (by decide)

/-! ## C6: search of available doctors -/

/-- Every calendar date has a weekday name. -/
theorem diaSemana_isSome (fecha : Fecha) : ∃ dia, diaSemana fecha = some dia := by
  have key : ∀ f : Int, ((f + 4) % 7).toNat < 7 := by
    intro f; omega
  have h : ((fecha + 4) % 7).toNat < dias.length := key fecha
  exact ⟨dias[((fecha + 4) % 7).toNat], List.getElem?_eq_getElem h⟩

/-- The callback of the filter is the conjunction of the weekday test, the
time-window test and the absence of a scheduled appointment at the slot. -/
theorem estaDisponible_iff (citas : List Cita) (fecha : Fecha) (hora : Hora) (dia : String)
    (d : Doctor) :
    estaDisponible citas fecha hora dia d = true ↔
      (atiendeDia d dia = true ∧ enVentana d hora = true ∧
        ¬ TieneCitaProgramada citas d.id fecha hora) := by
  show (if (!atiendeDia d dia) = true then false
      else if (decide (minutos hora < minutos d.horarioInicio) ||
          decide (minutos hora ≥ minutosFinAjustado d)) = true then false
      else !citas.any (fun c => c.doctorId == d.id && c.fecha == fecha && c.hora == hora &&
          c.estado == "programada")) = true ↔ _
  have hoc : (citas.any (fun c => c.doctorId == d.id && c.fecha == fecha && c.hora == hora &&
      c.estado == "programada")) = true ↔ TieneCitaProgramada citas d.id fecha hora := by
    unfold TieneCitaProgramada
    rw [List.any_eq_true]
    simp only [Bool.and_eq_true, beq_iff_eq, and_assoc]
  unfold enVentana
  by_cases h1 : atiendeDia d dia = true
  · by_cases h2 : minutos hora < minutos d.horarioInicio
    · have h2' : ¬ (minutos d.horarioInicio ≤ minutos hora) := by omega
      simp [h1, h2, h2']
    · have h2' : minutos d.horarioInicio ≤ minutos hora := by omega
      by_cases h3 : minutos hora < minutosFinAjustado d
      · have h3' : ¬ (minutosFinAjustado d ≤ minutos hora) := by omega
        simp only [h1, h2, h2', h3, h3', Bool.not_true, Bool.false_eq_true, if_false,
          decide_True, decide_False, Bool.or_self, ge_iff_le, Bool.and_self, true_and,
          Bool.not_eq_true', ← hoc, Bool.not_eq_true]
      · have h3' : minutosFinAjustado d ≤ minutos hora := by omega
        simp [h1, h2, h3, h3']
  · simp [h1]

/-- C6: for a well-formed time of day, `GET /doctores/disponibles` returns, in
stored order, exactly the doctors that pass the weekday test and the time-window
test and have no appointment with `estado` "programada" at exactly that date and
time: a doctor with a scheduled appointment at the slot is excluded, and a doctor
that passes both tests and whose appointments at the slot are all cancelled is
included.  For a window that does not end at hour 24 the time-window test is
`inicio <= T < fin`. -/
theorem c6_doctoresDisponibles_exacto (tz : Int) (doctores : List Doctor)
    (citas : List Cita) (fecha : Fecha) (hora : Hora) (hh : hora.h < 24) (hm : hora.m < 60) :
    ∃ dia disponibles, diaSemana fecha = some dia ∧
      doctoresDisponibles tz doctores citas (some fecha) (some hora) = .ok disponibles ∧
      (∃ p : Doctor → Bool, disponibles = doctores.filter p ∧
        ∀ d, p d = true ↔ (atiendeDia d dia = true ∧ enVentana d hora = true ∧
          ¬ TieneCitaProgramada citas d.id fecha hora)) ∧
      (∀ d, d ∈ disponibles ↔ (d ∈ doctores ∧ atiendeDia d dia = true ∧
          enVentana d hora = true ∧ ¬ TieneCitaProgramada citas d.id fecha hora)) ∧
      (∀ d, TieneCitaProgramada citas d.id fecha hora → d ∉ disponibles) ∧
      (∀ d ∈ doctores, atiendeDia d dia = true → enVentana d hora = true →
        (∀ c ∈ citas, c.doctorId = d.id → c.fecha = fecha → c.hora = hora →
          c.estado = "cancelada") → d ∈ disponibles) ∧
      (∀ d : Doctor, d.horarioFin.h ≠ 24 →
        (enVentana d hora = true ↔
          (minutos d.horarioInicio ≤ minutos hora ∧ minutos hora < minutos d.horarioFin))) := by
  obtain ⟨dia, hdia⟩ := diaSemana_isSome fecha
  have hd : diaDe tz (nuevaFecha tz fecha hora) = some dia := by
    rw [diaDe_nuevaFecha tz fecha hora hh hm, hdia]
  have hmem : ∀ d, d ∈ doctores.filter (estaDisponible citas fecha hora dia) ↔
      (d ∈ doctores ∧ atiendeDia d dia = true ∧ enVentana d hora = true ∧
        ¬ TieneCitaProgramada citas d.id fecha hora) := by
    intro d
    rw [List.mem_filter, estaDisponible_iff]
  refine ⟨dia, doctores.filter (estaDisponible citas fecha hora dia), hdia, ?_,
    ⟨_, rfl, estaDisponible_iff citas fecha hora dia⟩, hmem, ?_, ?_, ?_⟩
  · simp only [doctoresDisponibles, hd]
  · intro d ht hin
    exact ((hmem d).1 hin).2.2.2 ht
  · intro d hin ha hv hcan
    refine (hmem d).2 ⟨hin, ha, hv, ?_⟩
    rintro ⟨c, hc, h1, h2, h3, h4⟩
    have := hcan c hc h1 h2 h3
    rw [h4] at this
    revert this
    decide
  · intro d h24
    simp only [enVentana, minutosFinAjustado, minutos, h24, if_false, Bool.and_eq_true,
      decide_eq_true_eq]

/-- Witness of C6: Monday 11:30, doctor `d1` with only a cancelled appointment
at the slot. -/
theorem c6_doctoresDisponibles_exacto_witness :
    ((⟨11, 30⟩ : Hora).h < 24 ∧ (⟨11, 30⟩ : Hora).m < 60) ∧
    ∃ dia disponibles, diaSemana lunes = some dia ∧
      doctoresDisponibles 0 [dGarcia] [⟨"c0", "p1", "d1", lunes, ⟨11, 30⟩, "cancelada"⟩]
        (some lunes) (some ⟨11, 30⟩) = .ok disponibles ∧
      (∀ d, d ∈ disponibles ↔ (d ∈ [dGarcia] ∧ atiendeDia d dia = true ∧
          enVentana d ⟨11, 30⟩ = true ∧
          ¬ TieneCitaProgramada [⟨"c0", "p1", "d1", lunes, ⟨11, 30⟩, "cancelada"⟩]
            d.id lunes ⟨11, 30⟩)) :=
  ⟨by decide,
   match c6_doctoresDisponibles_exacto 0 [dGarcia]
      [⟨"c0", "p1", "d1", lunes, ⟨11, 30⟩, "cancelada"⟩] lunes ⟨11, 30⟩
      (by decide) (by decide) with
   | ⟨dia, disponibles, h1, h2, _, h4, _⟩ => ⟨dia, disponibles, h1, h2, h4⟩⟩

/-! ## C8: appointments per doctor -/

/-- Reading an own property after a write of an own property. -/
theorem propia_ponerPropia (o : Objeto) (k k' : String) (v : Valor) :
    propia (ponerPropia o k v) k' = if k = k' then some v else propia o k' := by
  induction o with
  | nil => simp [ponerPropia, propia]
  | cons e o ih =>
    obtain ⟨ke, ve⟩ := e
    by_cases h1 : ke = k
    · subst h1
      by_cases h2 : ke = k'
      · simp [ponerPropia, propia, h2]
      · simp [ponerPropia, propia, h2]
    · by_cases h2 : ke = k'
      · subst h2
        simp [ponerPropia, propia, h1, Ne.symm h1]
      · simp [ponerPropia, propia, h1, h2, ih]

/-- Reading an own property other than `__proto__` after a property write. -/
theorem propia_asignar (o : Objeto) (k k' : String) (v : Valor) (hk : k' ≠ "__proto__") :
    propia (asignar o k v) k' = if k = k' then some v else propia o k' := by
  unfold asignar
  by_cases hp : k = "__proto__"
  · have hne : ¬ k = k' := fun h => hk (h ▸ hp)
    simp [hp, hne, Ne.symm hk]
  · simp only [hp, if_false, propia_ponerPropia]

/-- A key with an own property, other than `__proto__`, reads that property. -/
theorem leer_of_propia (o : Objeto) (k : String) (v : Valor) (hk : k ≠ "__proto__")
    (h : propia o k = some v) : leer o k = some v := by
  simp [leer, hk, h]

/-- The initialisation `doctores.forEach(d => { conteo[d.id] = 0; })` gives an
own property 0 to every doctor identifier other than `__proto__`. -/
theorem propia_inicial (doctores : List Doctor) (o : Objeto) (k : String)
    (hk : k ≠ "__proto__") :
    propia (doctores.foldl (fun conteo d => asignar conteo d.id (.num 0)) o) k =
      if ∃ d ∈ doctores, d.id = k then some (.num 0) else propia o k := by
  induction doctores generalizing o with
  | nil => simp
  | cons d ds ih =>
    simp only [List.foldl_cons, ih, propia_asignar _ _ _ _ hk]
    by_cases h1 : ∃ d ∈ ds, d.id = k
    · have h2 : ∃ x ∈ d :: ds, x.id = k := by
        obtain ⟨x, hx, hxk⟩ := h1
        exact ⟨x, List.mem_cons_of_mem _ hx, hxk⟩
      simp [h1, h2]
    · by_cases h3 : d.id = k
      · have h2 : ∃ x ∈ d :: ds, x.id = k := ⟨d, List.mem_cons_self _ _, h3⟩
        simp [h1, h2, h3]
      · have h2 : ¬ ∃ x ∈ d :: ds, x.id = k := by
          rintro ⟨x, hx, hxk⟩
          rcases List.mem_cons.1 hx with rfl | hx
          · exact h3 hxk
          · exact h1 ⟨x, hx, hxk⟩
        simp [h1, h2, h3]

/-- The counting loop adds, to a numeric own property of a key other than
`__proto__`, the number of scheduled appointments that reference the key. -/
theorem propia_conteo (citas : List Cita) (o : Objeto) (k : String) (n : Nat)
    (hk : k ≠ "__proto__") (ho : propia o k = some (.num n)) :
    propia (citas.foldl (fun conteo c =>
        if c.estado == "programada" then
          match leer conteo c.doctorId with
          | some v => asignar conteo c.doctorId (masUno v)
          | none => conteo
        else conteo) o) k
      = some (.num (n + citasProgramadasDe citas k)) := by
  induction citas generalizing o n with
  | nil => simpa [citasProgramadasDe] using ho
  | cons c cs ih =>
    rw [List.foldl_cons]
    by_cases hp : c.estado = "programada"
    · by_cases hck : c.doctorId = k
      · have hc : citasProgramadasDe (c :: cs) k = citasProgramadasDe cs k + 1 := by
          simp [citasProgramadasDe, hp, hck]
        have hl : leer o c.doctorId = some (.num n) := by
          rw [hck]
          exact leer_of_propia o k _ hk ho
        have hnext : propia (asignar o c.doctorId (masUno (.num n))) k
            = some (.num (n + 1)) := by
          rw [propia_asignar _ _ _ _ hk]
          simp [hck, masUno]
        simp only [hp, beq_self_eq_true, if_true, hl]
        rw [ih _ (n + 1) hnext, hc]
        congr 2
        omega
      · have hc : citasProgramadasDe (c :: cs) k = citasProgramadasDe cs k := by
          simp [citasProgramadasDe, hp, hck]
        simp only [hp, beq_self_eq_true, if_true]
        cases hl : leer o c.doctorId with
        | none =>
          simp only []
          rw [ih o n ho, hc]
        | some v =>
          simp only []
          have hnext : propia (asignar o c.doctorId (masUno v)) k = some (.num n) := by
            rw [propia_asignar _ _ _ _ hk]
            simp [hck, ho]
          rw [ih _ n hnext, hc]
    · have hc : citasProgramadasDe (c :: cs) k = citasProgramadasDe cs k := by
        simp [citasProgramadasDe, hp]
      have hb : (c.estado == "programada") = false := by simpa using hp
      simp only [hb, Bool.false_eq_true, if_false]
      rw [ih o n ho, hc]

/-- The doctor statistics: one entry per stored doctor, in stored order; the
count of a doctor whose identifier is not `__proto__` is the number of scheduled
appointments that reference the identifier, and for the identifier `__proto__`
it is `Object.prototype`. -/
theorem estadisticasDoctores_eq (doctores : List Doctor) (citas : List Cita) :
    estadisticasDoctores doctores citas =
      doctores.map (fun d =>
        { doctor := d,
          citas := some (if d.id = "__proto__" then .heredado "__proto__" 0
            else .num (citasProgramadasDe citas d.id)) }) := by
  unfold estadisticasDoctores
  apply List.map_congr_left
  intro d hd
  by_cases hp : d.id = "__proto__"
  · simp [leer, hp]
  · have h : ∃ x ∈ doctores, x.id = d.id := ⟨d, hd, rfl⟩
    have h0 : propia (doctores.foldl (fun conteo d => asignar conteo d.id (.num 0)) []) d.id
        = some (.num 0) := by
      rw [propia_inicial doctores [] d.id hp]
      simp only [h, if_true]
    have h1 := propia_conteo citas _ d.id 0 hp h0
    simp only [hp, if_false, EntradaDoctor.mk.injEq, true_and]
    rw [leer_of_propia _ _ _ hp h1]
    simp

/-- With pairwise distinct identifiers, exactly one stored doctor has a given
identifier that occurs among them. -/
theorem countP_id_eq_one (doctores : List Doctor) (k : String)
    (hn : (doctores.map (fun d => d.id)).Nodup) (hk : ∃ d ∈ doctores, d.id = k) :
    doctores.countP (fun d => d.id == k) = 1 := by
  induction doctores with
  | nil =>
    obtain ⟨d, hd, _⟩ := hk
    cases hd
  | cons x xs ih =>
    rw [List.map_cons, List.nodup_cons] at hn
    by_cases hx : x.id = k
    · have hz : xs.countP (fun d => d.id == k) = 0 := by
        rw [List.countP_eq_zero]
        intro d hd hdk
        apply hn.1
        rw [List.mem_map]
        exact ⟨d, hd, by rw [hx]; simpa using hdk⟩
      have hb : (x.id == k) = true := by simpa using hx
      rw [List.countP_cons, hz]
      simp only [hb, if_true]
    · have hb : (x.id == k) = false := by simpa using hx
      rw [List.countP_cons]
      simp only [hb, Bool.false_eq_true, if_false, Nat.add_zero]
      apply ih hn.2
      obtain ⟨d, hd, hdk⟩ := hk
      rcases List.mem_cons.1 hd with rfl | hd
      · exact absurd hdk hx
      · exact ⟨d, hd, hdk⟩

/-- Summing over the doctors whether an appointment references them counts the
doctors with its identifier. -/
theorem sum_referencias (doctores : List Doctor) (c : Cita) :
    (doctores.map (fun d =>
        if (c.estado == "programada" && c.doctorId == d.id) = true then 1 else 0)).sum
      = if c.estado = "programada" then doctores.countP (fun d => d.id == c.doctorId) else 0 := by
  induction doctores with
  | nil => simp
  | cons x xs ih =>
    rw [List.map_cons, List.sum_cons, ih]
    by_cases hp : c.estado = "programada"
    · by_cases hx : x.id = c.doctorId
      · have hb : (x.id == c.doctorId) = true := by simpa using hx
        have hb2 : (c.doctorId == x.id) = true := by simpa using hx.symm
        rw [List.countP_cons]
        simp only [hp, hb, hb2, beq_self_eq_true, Bool.and_self, if_true]
        omega
      · have hb : (x.id == c.doctorId) = false := by simpa using hx
        have hb2 : (c.doctorId == x.id) = false := by simpa using Ne.symm hx
        rw [List.countP_cons]
        simp only [hp, hb, hb2, beq_self_eq_true, Bool.and_false, Bool.false_eq_true,
          if_false, if_true, Nat.add_zero, Nat.zero_add]
    · simp [hp]

/-- With pairwise distinct doctor identifiers and every scheduled appointment
referencing a stored doctor, the per-doctor counts add up to the number of
scheduled appointments. -/
theorem suma_citasProgramadasDe (doctores : List Doctor) (citas : List Cita)
    (hn : (doctores.map (fun d => d.id)).Nodup)
    (href : ∀ c ∈ citas, c.estado = "programada" → ∃ d ∈ doctores, d.id = c.doctorId) :
    (doctores.map (fun d => citasProgramadasDe citas d.id)).sum = totalProgramadas citas := by
  induction citas with
  | nil => simp [citasProgramadasDe, totalProgramadas]
  | cons c cs ih =>
    have hstep : (doctores.map (fun d => citasProgramadasDe (c :: cs) d.id)).sum
        = (doctores.map (fun d => citasProgramadasDe cs d.id)).sum
          + (doctores.map (fun d =>
              if (c.estado == "programada" && c.doctorId == d.id) = true then 1 else 0)).sum := by
      rw [← List.sum_map_add]
      congr 1
      apply List.map_congr_left
      intro d _
      simp only [citasProgramadasDe, List.countP_cons]
    rw [hstep, ih (fun x hx => href x (List.mem_cons_of_mem _ hx)), sum_referencias]
    unfold totalProgramadas
    rw [List.countP_cons]
    by_cases hp : c.estado = "programada"
    · rw [countP_id_eq_one doctores c.doctorId hn (href c (List.mem_cons_self _ _) hp)]
      simp [hp]
    · simp [hp]

/-- C8 (counterexample): (1) two stored doctors share the identifier "d1" (which
`POST /doctores` allows, since it only compares name and specialty) and one
scheduled appointment references it: the counts are 1 and 1 and add up to 2;
(2) with no stored doctor, a scheduled appointment is counted nowhere; (3) for a
doctor with the identifier `__proto__` the write `conteo[d.id] = 0` creates no
property and the count of the entry is `Object.prototype`, not the number 0 of
its scheduled appointments. -/
theorem c8_suma_distinta_del_total :
    (sumaConteos (estadisticasDoctores [dGarcia, { dTarde with id := "d1" }]
        [⟨"c1", "p1", "d1", lunes, ⟨11, 30⟩, "programada"⟩]) = 2 ∧
      totalProgramadas [⟨"c1", "p1", "d1", lunes, ⟨11, 30⟩, "programada"⟩] = 1) ∧
    (sumaConteos (estadisticasDoctores []
        [⟨"c1", "p1", "d1", lunes, ⟨11, 30⟩, "programada"⟩]) = 0 ∧
      totalProgramadas [⟨"c1", "p1", "d1", lunes, ⟨11, 30⟩, "programada"⟩] = 1) ∧
    (estadisticasDoctores [{ dGarcia with id := "__proto__" }] []
        = [{ doctor := { dGarcia with id := "__proto__" },
             citas := some (.heredado "__proto__" 0) }] ∧
      citasProgramadasDe [] "__proto__" = 0) := by
  decide

/-- C8 (amended): `GET /estadisticas/doctores` returns exactly one entry per
stored doctor, in stored order and with the doctors without appointments; for
every doctor whose identifier is not `__proto__` the count of the entry is the
number of appointments with `estado` "programada" whose `doctorId` is that
identifier; when no doctor identifier is `__proto__`, the doctor identifiers are
pairwise distinct and every scheduled appointment references a stored doctor,
the counts add up to the number of scheduled appointments. -/
theorem c8_estadisticasDoctores (doctores : List Doctor) (citas : List Cita) :
    (estadisticasDoctores doctores citas).map (fun e => e.doctor) = doctores ∧
    (∀ e ∈ estadisticasDoctores doctores citas, e.doctor.id ≠ "__proto__" →
      e.citas = some (.num (citasProgramadasDe citas e.doctor.id))) ∧
    ((∀ d ∈ doctores, d.id ≠ "__proto__") →
      (doctores.map (fun d => d.id)).Nodup →
      (∀ c ∈ citas, c.estado = "programada" → ∃ d ∈ doctores, d.id = c.doctorId) →
      sumaConteos (estadisticasDoctores doctores citas) = totalProgramadas citas) := by
  rw [estadisticasDoctores_eq]
  refine ⟨?_, ?_, ?_⟩
  · simp [List.map_map, Function.comp_def]
  · intro e he hne
    obtain ⟨d, _, rfl⟩ := List.mem_map.1 he
    simp only at hne
    simp only [hne, if_false]
  · intro hproto hn href
    rw [← suma_citasProgramadasDe doctores citas hn href]
    unfold sumaConteos
    rw [List.map_map]
    congr 1
    apply List.map_congr_left
    intro d hd
    simp [hproto d hd, peso]

/-- Witness of C8: two doctors with distinct identifiers, one of them without
appointments, and one scheduled and one cancelled appointment. -/
theorem c8_estadisticasDoctores_witness :
    ((∀ d ∈ [dGarcia, dTarde], d.id ≠ "__proto__") ∧
      ([dGarcia, dTarde].map (fun d => d.id)).Nodup ∧
      ∀ c ∈ [(⟨"c1", "p1", "d1", lunes, ⟨11, 30⟩, "programada"⟩ : Cita),
          ⟨"c2", "p1", "d1", lunes, ⟨10, 0⟩, "cancelada"⟩],
        c.estado = "programada" → ∃ d ∈ [dGarcia, dTarde], d.id = c.doctorId) ∧
    sumaConteos (estadisticasDoctores [dGarcia, dTarde]
        [⟨"c1", "p1", "d1", lunes, ⟨11, 30⟩, "programada"⟩,
         ⟨"c2", "p1", "d1", lunes, ⟨10, 0⟩, "cancelada"⟩])
      = totalProgramadas [⟨"c1", "p1", "d1", lunes, ⟨11, 30⟩, "programada"⟩,
         ⟨"c2", "p1", "d1", lunes, ⟨10, 0⟩, "cancelada"⟩] :=
  ⟨⟨by decide, by decide, by decide⟩,
   (c8_estadisticasDoctores [dGarcia, dTarde]
      [⟨"c1", "p1", "d1", lunes, ⟨11, 30⟩, "programada"⟩,
       ⟨"c2", "p1", "d1", lunes, ⟨10, 0⟩, "cancelada"⟩]).2.2
      (by decide) (by decide) (by decide)⟩

/-! ## C9: most requested specialty -/

/-- The tally loop of `GET /estadisticas/especialidades` counts the sequence of
specialties of the scheduled appointments. -/
theorem conteoEspecialidades_eq (doctores : List Doctor) (citas : List Cita) :
    conteoEspecialidades doctores citas
      = (especialidadesProgramadas doctores citas).foldl contarUna [] := by
  unfold conteoEspecialidades especialidadesProgramadas
  generalize ([] : Objeto) = o
  induction citas generalizing o with
  | nil => rfl
  | cons c cs ih =>
    simp only [List.foldl_cons, List.filterMap_cons]
    by_cases hp : (c.estado == "programada") = true
    · cases hd : doctores.find? (fun d => d.id == c.doctorId) with
      | none =>
        simp only [hp, if_true, Option.map_none']
        exact ih o
      | some d =>
        simp only [hp, if_true, Option.map_some', List.foldl_cons]
        exact ih _
    · simp only [hp, Bool.false_eq_true, if_false]
      exact ih o

/-- Keys of the object after a write of an own property. -/
theorem claves_ponerPropia (o : Objeto) (k : String) (v : Valor) :
    (ponerPropia o k v).map (fun e => e.1)
      = if k ∈ o.map (fun e => e.1) then o.map (fun e => e.1)
        else o.map (fun e => e.1) ++ [k] := by
  induction o with
  | nil => simp [ponerPropia]
  | cons e o ih =>
    obtain ⟨ke, ve⟩ := e
    by_cases h1 : ke = k
    · subst h1
      simp [ponerPropia]
    · have h2 : ¬ k = ke := fun h => h1 h.symm
      simp only [ponerPropia, h1, if_false, List.map_cons, ih, List.mem_cons, h2, false_or]
      split_ifs <;> simp

/-- A property of the object after a write is the written one or an earlier one. -/
theorem mem_ponerPropia (o : Objeto) (k : String) (v : Valor) (y : String × Valor)
    (h : y ∈ ponerPropia o k v) : y ∈ o ∨ y = (k, v) := by
  induction o with
  | nil =>
    right
    simpa [ponerPropia] using h
  | cons e o ih =>
    obtain ⟨ke, ve⟩ := e
    by_cases h1 : ke = k
    · simp only [ponerPropia, h1, if_true, List.mem_cons] at h
      rcases h with h | h
      · right; exact h
      · left; exact List.mem_cons_of_mem _ h
    · simp only [ponerPropia, h1, if_false, List.mem_cons] at h
      rcases h with h | h
      · left; rw [h]; exact List.mem_cons_self _ _
      · rcases ih h with h2 | h2
        · left; exact List.mem_cons_of_mem _ h2
        · right; exact h2

/-- An own property that is read is one of the properties of the object. -/
theorem mem_of_propia (o : Objeto) (k : String) (v : Valor) (h : propia o k = some v) :
    (k, v) ∈ o := by
  induction o with
  | nil => simp [propia] at h
  | cons e o ih =>
    obtain ⟨ke, ve⟩ := e
    by_cases h1 : ke = k
    · simp only [propia, h1, if_true, Option.some.injEq] at h
      subst h1 h
      exact List.mem_cons_self _ _
    · simp only [propia, h1, if_false] at h
      exact List.mem_cons_of_mem _ (ih h)

/-- In an object with distinct keys every property is the one that is read. -/
theorem propia_of_mem (o : Objeto) (k : String) (v : Valor)
    (hn : (o.map (fun e => e.1)).Nodup) (h : (k, v) ∈ o) : propia o k = some v := by
  induction o with
  | nil => cases h
  | cons e o ih =>
    obtain ⟨ke, ve⟩ := e
    rw [List.map_cons, List.nodup_cons] at hn
    rcases List.mem_cons.1 h with heq | hm
    · cases heq
      simp [propia]
    · have h1 : ¬ ke = k := by
        intro hk
        apply hn.1
        rw [List.mem_map]
        exact ⟨(k, v), hm, hk.symm⟩
      simp only [propia, h1, if_false]
      exact ih hn.2 hm

/-- For a name that is not a member of `Object.prototype`, one step of the
tally loop reads and writes the own property of that name. -/
theorem contarUna_ordinaria (o : Objeto) (x : String) (hx : x ∉ miembrosHeredados) :
    contarUna o x = ponerPropia o x (masUno (oCero (propia o x))) := by
  have hp : x ≠ "__proto__" := by
    rintro rfl
    exact hx (by decide)
  unfold contarUna asignar leer
  simp only [hp, if_false, hx]
  cases propia o x <;> rfl

/-- The value `x || 0` of a number is that number. -/
theorem oCero_num (n : Nat) : oCero (some (.num n)) = .num n := by
  cases n <;> rfl

/-- The tally loop keeps the keys distinct. -/
theorem claves_nodup (l : List String) (o : Objeto) (hl : ∀ e ∈ l, e ∉ miembrosHeredados)
    (hn : (o.map (fun e => e.1)).Nodup) :
    ((l.foldl contarUna o).map (fun e => e.1)).Nodup := by
  induction l generalizing o with
  | nil => exact hn
  | cons x l ih =>
    rw [List.foldl_cons]
    apply ih _ (fun e he => hl e (List.mem_cons_of_mem _ he))
    rw [contarUna_ordinaria o x (hl x (List.mem_cons_self _ _)), claves_ponerPropia]
    split_ifs with hx
    · exact hn
    · rw [List.nodup_append]
      refine ⟨hn, List.nodup_singleton _, ?_⟩
      intro a ha hb
      rw [List.mem_singleton] at hb
      subst hb
      exact hx ha

/-- The value that the tally loop leaves for a key, when the counted names are
not members of `Object.prototype` and the object holds numbers. -/
theorem propia_contar (l : List String) (o : Objeto) (k : String)
    (hl : ∀ e ∈ l, e ∉ miembrosHeredados) (ho : ∀ y ∈ o, ∃ n, y.2 = Valor.num n) :
    propia (l.foldl contarUna o) k =
      match propia o k with
      | some v => some (.num (peso v + l.count k))
      | none => if l.count k = 0 then none else some (.num (l.count k)) := by
  induction l generalizing o with
  | nil =>
    simp only [List.foldl_nil]
    cases h : propia o k with
    | none => simp
    | some v =>
      obtain ⟨n, hn⟩ := ho _ (mem_of_propia o k v h)
      simp only at hn
      simp [hn, peso]
  | cons x l ih =>
    have hx := hl x (List.mem_cons_self _ _)
    have hval : ∃ n, masUno (oCero (propia o x)) = Valor.num (n + 1) ∧
        n = (match propia o x with | some v => peso v | none => 0) := by
      cases h : propia o x with
      | none => exact ⟨0, rfl, rfl⟩
      | some v =>
        obtain ⟨n, hn⟩ := ho _ (mem_of_propia o x v h)
        simp only at hn
        subst hn
        exact ⟨n, by rw [oCero_num]; rfl, rfl⟩
    obtain ⟨m, hm, hmv⟩ := hval
    have ho2 : ∀ y ∈ contarUna o x, ∃ n, y.2 = Valor.num n := by
      intro y hy
      rw [contarUna_ordinaria o x hx] at hy
      rcases mem_ponerPropia _ _ _ _ hy with h1 | h1
      · exact ho y h1
      · exact ⟨m + 1, by rw [h1, hm]⟩
    rw [List.foldl_cons, ih _ (fun e he => hl e (List.mem_cons_of_mem _ he)) ho2,
      contarUna_ordinaria o x hx, propia_ponerPropia, hm]
    have hp1 : peso (Valor.num (m + 1)) = m + 1 := rfl
    by_cases hxk : x = k
    · subst hxk
      simp only [if_true, hp1, List.count_cons_self]
      cases h : propia o x with
      | none =>
        simp only [h] at hmv
        have h0 : ¬ (l.count x + 1 = 0) := by omega
        simp only [h0, if_false, hmv]
        congr 2; omega
      | some v =>
        simp only [h] at hmv
        simp only [hmv]
        congr 2; omega
    · have hc : (x :: l).count k = l.count k := by
        rw [List.count_cons]
        simp [hxk]
      simp only [hxk, if_false, hc]

/-- One step of the loop over the entries, in terms of the number that each
count is. -/
theorem buscarMaximo_cons (a : String × Valor) (es : List (String × Valor))
    (m0 : Option String) (n0 : Nat) :
    buscarMaximo (a :: es) (m0, n0)
      = buscarMaximo es (if peso a.2 > n0 then (some a.1, peso a.2) else (m0, n0)) := by
  obtain ⟨k, v⟩ := a
  cases v with
  | num n => rfl
  | heredado nombre sumas =>
    have h0 : ¬ (0 > n0) := by omega
    simp only [peso, h0, if_false]
    rfl

/-- The loop over the entries: either no entry exceeds the initial count and the
state is unchanged, or the state is the first entry whose count is greater than
the initial count and than every earlier count and at least every later count. -/
theorem buscarMaximo_spec (es : List (String × Valor)) (m0 : Option String) (n0 : Nat) :
    (buscarMaximo es (m0, n0) = (m0, n0) ∧ ∀ e ∈ es, peso e.2 ≤ n0) ∨
    (∃ antes e despues, es = antes ++ e :: despues ∧
      buscarMaximo es (m0, n0) = (some e.1, peso e.2) ∧ n0 < peso e.2 ∧
      (∀ x ∈ antes, peso x.2 < peso e.2) ∧ (∀ x ∈ despues, peso x.2 ≤ peso e.2)) := by
  induction es generalizing m0 n0 with
  | nil => left; exact ⟨rfl, by simp⟩
  | cons a es ih =>
    rw [buscarMaximo_cons]
    by_cases ha : peso a.2 > n0
    · simp only [ha, if_true]
      rcases ih (some a.1) (peso a.2) with
        ⟨hr, hall⟩ | ⟨antes, e, despues, hes, hr, hlt, h1, h2⟩
      · right
        exact ⟨[], a, es, rfl, hr, ha, by simp, hall⟩
      · right
        refine ⟨a :: antes, e, despues, by rw [hes]; rfl, hr, by omega, ?_, h2⟩
        intro x hx
        rcases List.mem_cons.1 hx with rfl | hx
        · exact hlt
        · exact h1 x hx
    · simp only [ha, if_false]
      rcases ih m0 n0 with ⟨hr, hall⟩ | ⟨antes, e, despues, hes, hr, hlt, h1, h2⟩
      · left
        refine ⟨hr, ?_⟩
        intro x hx
        rcases List.mem_cons.1 hx with rfl | hx
        · omega
        · exact hall x hx
      · right
        refine ⟨a :: antes, e, despues, by rw [hes]; rfl, hr, hlt, ?_, h2⟩
        intro x hx
        rcases List.mem_cons.1 hx with rfl | hx
        · omega
        · exact h1 x hx

/-- The entries of an object are its own properties, in some order. -/
theorem mem_entradas (o : Objeto) (x : String × Valor) : x ∈ entradas o ↔ x ∈ o := by
  unfold entradas
  rw [List.mem_append, List.mem_insertionSort, List.mem_filter, List.mem_filter]
  constructor
  · rintro (⟨h, _⟩ | ⟨h, _⟩) <;> exact h
  · intro h
    by_cases hi : esIndice x.1 = true
    · left; exact ⟨h, hi⟩
    · right; exact ⟨h, by simpa using hi⟩

/-- When no key is an array index the entries are the own properties in
creation order. -/
theorem entradas_eq_self (o : Objeto) (h : ∀ x ∈ o, esIndice x.1 = false) :
    entradas o = o := by
  unfold entradas
  have h1 : o.filter (fun e => esIndice e.1) = [] := by
    rw [List.filter_eq_nil_iff]
    intro a ha
    simp [h a ha]
  have h2 : o.filter (fun e => !esIndice e.1) = o := by
    rw [List.filter_eq_self]
    intro a ha
    simp [h a ha]
  rw [h1, h2]
  rfl

/-- The tally loop only appends keys: the keys before the loop open the list of
keys after it. -/
theorem claves_contar_extiende (l : List String) (o : Objeto)
    (hl : ∀ e ∈ l, e ∉ miembrosHeredados) :
    ∃ t, (l.foldl contarUna o).map (fun e => e.1) = o.map (fun e => e.1) ++ t := by
  induction l generalizing o with
  | nil => exact ⟨[], by simp⟩
  | cons x l ih =>
    rw [List.foldl_cons]
    obtain ⟨t, ht⟩ := ih (contarUna o x) (fun e he => hl e (List.mem_cons_of_mem _ he))
    rw [ht, contarUna_ordinaria o x (hl x (List.mem_cons_self _ _)), claves_ponerPropia]
    split_ifs
    · exact ⟨t, rfl⟩
    · exact ⟨[x] ++ t, by simp⟩

/-- Every key of the tally is a key from before the loop or a counted name. -/
theorem claves_contar_mem (l : List String) (o : Objeto) (k : String)
    (hl : ∀ e ∈ l, e ∉ miembrosHeredados)
    (h : k ∈ (l.foldl contarUna o).map (fun e => e.1)) :
    k ∈ o.map (fun e => e.1) ∨ k ∈ l := by
  induction l generalizing o with
  | nil => left; exact h
  | cons x l ih =>
    rw [List.foldl_cons] at h
    rcases ih (contarUna o x) (fun e he => hl e (List.mem_cons_of_mem _ he)) h with h1 | h1
    · rw [contarUna_ordinaria o x (hl x (List.mem_cons_self _ _)), claves_ponerPropia] at h1
      split_ifs at h1
      · left; exact h1
      · rcases List.mem_append.1 h1 with h2 | h2
        · left; exact h2
        · right
          rw [List.mem_singleton] at h2
          rw [h2]
          exact List.mem_cons_self _ _
    · right; exact List.mem_cons_of_mem _ h1

/-- Keys are created in the order in which names are first seen: every name
seen before the first occurrence of a key created by the loop has its key
before it. -/
theorem orden_primera_vista (l : List String) (o : Objeto) (antes : List String)
    (e : String) (despues : List String) (hl : ∀ x ∈ l, x ∉ miembrosHeredados)
    (h : (l.foldl contarUna o).map (fun x => x.1) = antes ++ e :: despues)
    (he : e ∉ o.map (fun x => x.1)) :
    ∃ l1 l2, l = l1 ++ e :: l2 ∧ ∀ x ∈ l1, x ∈ antes := by
  induction l generalizing o with
  | nil =>
    exfalso
    apply he
    simp only [List.foldl_nil] at h
    rw [h]
    simp
  | cons x l ih =>
    rw [List.foldl_cons] at h
    have hxo := hl x (List.mem_cons_self _ _)
    have hl2 : ∀ y ∈ l, y ∉ miembrosHeredados := fun y hy => hl y (List.mem_cons_of_mem _ hy)
    have hx : x ∈ (contarUna o x).map (fun y => y.1) := by
      rw [contarUna_ordinaria o x hxo, claves_ponerPropia]
      split_ifs with hm
      · exact hm
      · simp
    by_cases he2 : e ∈ (contarUna o x).map (fun y => y.1)
    · have hxe : x = e := by
        rw [contarUna_ordinaria o x hxo, claves_ponerPropia] at he2
        split_ifs at he2
        · exact absurd he2 he
        · rcases List.mem_append.1 he2 with h2 | h2
          · exact absurd h2 he
          · exact (List.mem_singleton.1 h2).symm
      exact ⟨[], l, by rw [hxe]; rfl, by simp⟩
    · obtain ⟨l1, l2, hl12, hall⟩ := ih (contarUna o x) hl2 h he2
      refine ⟨x :: l1, l2, by rw [hl12]; rfl, ?_⟩
      intro y hy
      rcases List.mem_cons.1 hy with rfl | hy
      · obtain ⟨t, ht⟩ := claves_contar_extiende l (contarUna o y) hl2
        rw [h] at ht
        rcases List.append_eq_append_iff.1 ht with ⟨a, ha, hat⟩ | ⟨c, hc, _⟩
        · rw [ha] at hx
          rcases List.mem_append.1 hx with h3 | h3
          · exact h3
          · exfalso
            apply he2
            rw [ha]
            apply List.mem_append_right
            cases a with
            | nil => cases h3
            | cons a0 as =>
              simp only [List.cons_append, List.cons.injEq] at hat
              rw [← hat.1]
              exact List.mem_cons_self _ _
        · rw [hc]
          exact List.mem_append_left _ hx
      · exact hall y hy

/-- A name is among the specialties of the scheduled appointments exactly when
a scheduled appointment finds a doctor with that specialty. -/
theorem mem_especialidadesProgramadas (doctores : List Doctor) (citas : List Cita)
    (e : String) :
    e ∈ especialidadesProgramadas doctores citas ↔
      ∃ c ∈ citas, c.estado = "programada" ∧
        ∃ d, doctores.find? (fun d => d.id == c.doctorId) = some d ∧ d.especialidad = e := by
  unfold especialidadesProgramadas
  rw [List.mem_filterMap]
  constructor
  · rintro ⟨c, hc, h⟩
    by_cases hp : c.estado = "programada"
    · simp only [hp, beq_self_eq_true, if_true, Option.map_eq_some'] at h
      exact ⟨c, hc, hp, h⟩
    · simp [hp] at h
  · rintro ⟨c, hc, hp, d, hd, he⟩
    refine ⟨c, hc, ?_⟩
    simp [hp, hd, he]

/-- When no specialty of a stored doctor is a member name of `Object.prototype`,
no counted name is one. -/
theorem especialidadesProgramadas_ordinarias (doctores : List Doctor) (citas : List Cita)
    (hord : ∀ d ∈ doctores, d.especialidad ∉ miembrosHeredados) :
    ∀ e ∈ especialidadesProgramadas doctores citas, e ∉ miembrosHeredados := by
  intro e he
  obtain ⟨c, _, _, d, hd, hesp⟩ := (mem_especialidadesProgramadas doctores citas e).1 he
  rw [← hesp]
  exact hord d (List.mem_of_find?_eq_some hd)

/-- When no specialty is a member name of `Object.prototype`, the tally object
has one property per seen specialty, with its tally as a number. -/
theorem mem_conteoEspecialidades (doctores : List Doctor) (citas : List Cita)
    (hord : ∀ d ∈ doctores, d.especialidad ∉ miembrosHeredados) (k : String) (v : Valor) :
    (k, v) ∈ conteoEspecialidades doctores citas ↔
      (v = .num (citasDeEspecialidad doctores citas k) ∧
        0 < citasDeEspecialidad doctores citas k) := by
  rw [conteoEspecialidades_eq]
  unfold citasDeEspecialidad
  have hl := especialidadesProgramadas_ordinarias doctores citas hord
  have hn := claves_nodup (especialidadesProgramadas doctores citas) [] hl List.nodup_nil
  have hp := propia_contar (especialidadesProgramadas doctores citas) [] k hl (by simp)
  simp only [propia] at hp
  constructor
  · intro hm
    have h1 := propia_of_mem _ k v hn hm
    rw [hp] at h1
    split_ifs at h1 with h0
    simp only [Option.some.injEq] at h1
    exact ⟨h1.symm, by omega⟩
  · rintro ⟨hv, hpos⟩
    apply mem_of_propia
    rw [hp]
    have h0 : ¬ (especialidadesProgramadas doctores citas).count k = 0 := by omega
    simp only [h0, if_false, hv]

/-- C9 (counterexample): (1) a scheduled appointment whose doctor is not stored
is skipped by the guard `if (doctor)`, so the result is `(null, 0)` although a
scheduled appointment exists; (2) with the specialties "2" and "1" seen in that
order, one scheduled appointment each, the result is "1": `Object.entries`
lists array-index keys first, in ascending numeric order; (3) for the specialty
"constructor" the read `conteo[esp]` yields the inherited member, the stored
count is a text and the result is `(null, 0)` although the specialty has one
scheduled appointment. -/
theorem c9_sin_doctor_y_claves_numericas :
    (especialidadMasSolicitada [] [⟨"c1", "p1", "d1", lunes, ⟨11, 30⟩, "programada"⟩]
        = (none, 0) ∧
      totalProgramadas [⟨"c1", "p1", "d1", lunes, ⟨11, 30⟩, "programada"⟩] = 1) ∧
    (especialidadesProgramadas
        [{ dGarcia with especialidad := "2" }, { dTarde with especialidad := "1" }]
        [⟨"c1", "p1", "d1", lunes, ⟨11, 30⟩, "programada"⟩,
         ⟨"c2", "p1", "d2", lunes, ⟨15, 0⟩, "programada"⟩] = ["2", "1"] ∧
      especialidadMasSolicitada
        [{ dGarcia with especialidad := "2" }, { dTarde with especialidad := "1" }]
        [⟨"c1", "p1", "d1", lunes, ⟨11, 30⟩, "programada"⟩,
         ⟨"c2", "p1", "d2", lunes, ⟨15, 0⟩, "programada"⟩] = (some "1", 1)) ∧
    (especialidadMasSolicitada [{ dGarcia with especialidad := "constructor" }]
        [⟨"c1", "p1", "d1", lunes, ⟨11, 30⟩, "programada"⟩] = (none, 0) ∧
      citasDeEspecialidad [{ dGarcia with especialidad := "constructor" }]
        [⟨"c1", "p1", "d1", lunes, ⟨11, 30⟩, "programada"⟩] "constructor" = 1) := by
  decide

/-- C9 (amended): `GET /estadisticas/especialidades` returns `(null, 0)` when no
scheduled appointment references a stored doctor, in particular when there is no
scheduled appointment; otherwise, when no specialty name is a member name of
`Object.prototype`, it returns a specialty together with its tally of scheduled
appointments (joined through the doctor), that tally is positive and is the
maximum over all specialties, and, when in addition no specialty name is an
array-index text, every specialty seen before the first appointment of the
returned one has a strictly smaller tally: among the specialties that share the
maximum the first seen is returned. -/
theorem c9_especialidadMasSolicitada (doctores : List Doctor) (citas : List Cita) :
    ((∀ c ∈ citas, c.estado ≠ "programada") →
      especialidadMasSolicitada doctores citas = (none, 0)) ∧
    ((∀ c ∈ citas, c.estado = "programada" → ∀ d ∈ doctores, d.id ≠ c.doctorId) →
      especialidadMasSolicitada doctores citas = (none, 0)) ∧
    ((∀ d ∈ doctores, d.especialidad ∉ miembrosHeredados) →
      (∃ c ∈ citas, c.estado = "programada" ∧ ∃ d ∈ doctores, d.id = c.doctorId) →
      ∃ esp n, especialidadMasSolicitada doctores citas = (some esp, n) ∧
        n = citasDeEspecialidad doctores citas esp ∧ 0 < n ∧
        (∀ e, citasDeEspecialidad doctores citas e ≤ n) ∧
        ((∀ d ∈ doctores, esIndice d.especialidad = false) →
          ∃ l1 l2, especialidadesProgramadas doctores citas = l1 ++ esp :: l2 ∧
            ∀ e ∈ l1, citasDeEspecialidad doctores citas e < n)) := by
  have hvacio : (∀ c ∈ citas, c.estado = "programada" → ∀ d ∈ doctores, d.id ≠ c.doctorId) →
      especialidadMasSolicitada doctores citas = (none, 0) := by
    intro h
    have hl : especialidadesProgramadas doctores citas = [] := by
      rw [List.eq_nil_iff_forall_not_mem]
      intro e he
      obtain ⟨c, hc, hp, d, hd, _⟩ := (mem_especialidadesProgramadas doctores citas e).1 he
      have hm := List.mem_of_find?_eq_some hd
      have hq := List.find?_some hd
      exact h c hc hp d hm (by simpa using hq)
    unfold especialidadMasSolicitada
    rw [conteoEspecialidades_eq, hl]
    rfl
  refine ⟨?_, hvacio, ?_⟩
  · intro h
    exact hvacio (fun c hc hp => absurd hp (h c hc))
  · rintro hord ⟨c, hc, hp, d, hd, hid⟩
    have hvistas := especialidadesProgramadas_ordinarias doctores citas hord
    have hfind : ∃ d0, doctores.find? (fun d => d.id == c.doctorId) = some d0 := by
      cases hf : doctores.find? (fun d => d.id == c.doctorId) with
      | some d0 => exact ⟨d0, rfl⟩
      | none =>
        rw [List.find?_eq_none] at hf
        exact absurd (by simpa using hid) (hf d hd)
    obtain ⟨d0, hd0⟩ := hfind
    have he0 : d0.especialidad ∈ especialidadesProgramadas doctores citas :=
      (mem_especialidadesProgramadas doctores citas _).2 ⟨c, hc, hp, d0, hd0, rfl⟩
    have hpos0 : 0 < citasDeEspecialidad doctores citas d0.especialidad :=
      List.count_pos_iff.2 he0
    have hm0 : (d0.especialidad,
        Valor.num (citasDeEspecialidad doctores citas d0.especialidad))
        ∈ entradas (conteoEspecialidades doctores citas) :=
      (mem_entradas _ _).2 ((mem_conteoEspecialidades doctores citas hord _ _).2 ⟨rfl, hpos0⟩)
    unfold especialidadMasSolicitada
    rcases buscarMaximo_spec (entradas (conteoEspecialidades doctores citas)) none 0 with
      ⟨_, hall⟩ | ⟨antes, e, despues, hes, hr, hlt, h1, h2⟩
    · have := hall _ hm0
      simp only [peso] at this
      omega
    · have hein : e ∈ entradas (conteoEspecialidades doctores citas) := by
        rw [hes]
        exact List.mem_append_right _ (List.mem_cons_self _ _)
      have heT := (mem_conteoEspecialidades doctores citas hord e.1 e.2).1
        ((mem_entradas _ _).1 hein)
      have hpe : peso e.2 = citasDeEspecialidad doctores citas e.1 := by
        rw [heT.1]
        rfl
      refine ⟨e.1, peso e.2, hr, hpe, hlt, ?_, ?_⟩
      · intro k
        by_cases hk : citasDeEspecialidad doctores citas k = 0
        · omega
        · have hkm : (k, Valor.num (citasDeEspecialidad doctores citas k))
              ∈ entradas (conteoEspecialidades doctores citas) :=
            (mem_entradas _ _).2
              ((mem_conteoEspecialidades doctores citas hord _ _).2 ⟨rfl, by omega⟩)
          rw [hes] at hkm
          rcases List.mem_append.1 hkm with hx | hx
          · exact Nat.le_of_lt (h1 _ hx)
          · rcases List.mem_cons.1 hx with hx | hx
            · rw [← hx]
              exact Nat.le_refl _
            · exact h2 _ hx
      · intro hni
        have hTni : ∀ x ∈ conteoEspecialidades doctores citas, esIndice x.1 = false := by
          intro x hx
          have hxk : x.1 ∈ (conteoEspecialidades doctores citas).map (fun y => y.1) :=
            List.mem_map.2 ⟨x, hx, rfl⟩
          rw [conteoEspecialidades_eq] at hxk
          rcases claves_contar_mem _ [] x.1 hvistas hxk with h0 | h0
          · simp at h0
          · obtain ⟨c2, _, _, d2, hd2, hesp⟩ :=
              (mem_especialidadesProgramadas doctores citas x.1).1 h0
            rw [← hesp]
            exact hni d2 (List.mem_of_find?_eq_some hd2)
        rw [entradas_eq_self _ hTni] at hes
        have hkeys : ((especialidadesProgramadas doctores citas).foldl contarUna []).map
            (fun x => x.1) = antes.map (fun x => x.1) ++ e.1 :: despues.map (fun x => x.1) := by
          rw [← conteoEspecialidades_eq, hes]
          simp
        obtain ⟨l1, l2, hl, hbefore⟩ :=
          orden_primera_vista _ [] _ e.1 _ hvistas hkeys (by simp)
        refine ⟨l1, l2, hl, ?_⟩
        intro k hk
        obtain ⟨x, hx, hxk⟩ := List.mem_map.1 (hbefore k hk)
        have hxT : (x.1, x.2) ∈ conteoEspecialidades doctores citas := by
          rw [hes]
          exact List.mem_append_left _ hx
        have hxv := (mem_conteoEspecialidades doctores citas hord x.1 x.2).1 hxT
        have hpx : peso x.2 = citasDeEspecialidad doctores citas x.1 := by
          rw [hxv.1]
          rfl
        rw [← hxk, ← hpx]
        exact h1 x hx

/-- Witness of C9: Pediatria and Cardiologia have one scheduled appointment
each and Pediatria is seen first. -/
theorem c9_especialidadMasSolicitada_witness :
    ((∀ d ∈ [dGarcia, dTarde], d.especialidad ∉ miembrosHeredados) ∧
      (∃ c ∈ [(⟨"c1", "p1", "d2", lunes, ⟨15, 0⟩, "programada"⟩ : Cita),
          ⟨"c2", "p1", "d1", lunes, ⟨11, 30⟩, "programada"⟩],
        c.estado = "programada" ∧ ∃ d ∈ [dGarcia, dTarde], d.id = c.doctorId) ∧
      (∀ d ∈ [dGarcia, dTarde], esIndice d.especialidad = false)) ∧
    ∃ esp n,
      especialidadMasSolicitada [dGarcia, dTarde]
        [⟨"c1", "p1", "d2", lunes, ⟨15, 0⟩, "programada"⟩,
         ⟨"c2", "p1", "d1", lunes, ⟨11, 30⟩, "programada"⟩] = (some esp, n) ∧
      n = citasDeEspecialidad [dGarcia, dTarde]
        [⟨"c1", "p1", "d2", lunes, ⟨15, 0⟩, "programada"⟩,
         ⟨"c2", "p1", "d1", lunes, ⟨11, 30⟩, "programada"⟩] esp ∧
      ∃ l1 l2, especialidadesProgramadas [dGarcia, dTarde]
        [⟨"c1", "p1", "d2", lunes, ⟨15, 0⟩, "programada"⟩,
         ⟨"c2", "p1", "d1", lunes, ⟨11, 30⟩, "programada"⟩] = l1 ++ esp :: l2 ∧
        ∀ e ∈ l1, citasDeEspecialidad [dGarcia, dTarde]
          [⟨"c1", "p1", "d2", lunes, ⟨15, 0⟩, "programada"⟩,
           ⟨"c2", "p1", "d1", lunes, ⟨11, 30⟩, "programada"⟩] e < n :=
  have hord : ∀ d ∈ [dGarcia, dTarde], d.especialidad ∉ miembrosHeredados := by decide
  have hex : ∃ c ∈ [(⟨"c1", "p1", "d2", lunes, ⟨15, 0⟩, "programada"⟩ : Cita),
        ⟨"c2", "p1", "d1", lunes, ⟨11, 30⟩, "programada"⟩],
      c.estado = "programada" ∧ ∃ d ∈ [dGarcia, dTarde], d.id = c.doctorId :=
    ⟨⟨"c1", "p1", "d2", lunes, ⟨15, 0⟩, "programada"⟩, by decide, by decide,
      dTarde, by decide, by decide⟩
  have hni : ∀ d ∈ [dGarcia, dTarde], esIndice d.especialidad = false := by decide
  ⟨⟨hord, hex, hni⟩,
    match (c9_especialidadMasSolicitada [dGarcia, dTarde]
      [⟨"c1", "p1", "d2", lunes, ⟨15, 0⟩, "programada"⟩,
       ⟨"c2", "p1", "d1", lunes, ⟨11, 30⟩, "programada"⟩]).2.2 hord hex with
    | ⟨esp, n, h1, h2, _, _, h5⟩ => ⟨esp, n, h1, h2, h5 hni⟩⟩
